import Mathlib

/-!
# Boundary-layer inflation (`ucs/boundaryInflation.h`)

A shallow embedding of `GenerateBoundaryLayers` and `InflateBoundary`.

* A value of the scalar type `Real` of the code is a rational number (every finite
  value of a binary floating-point type is one). The product of two scalars is not
  the exact product: it is the collaborator `mul`, the product as the machine rounds
  it. Comparison of scalars is exact. Every scalar is finite: infinities and NaN are
  not values of the model.
* The mesh keeps its primary data only: node coordinates and the element list.
  Node and element indices are natural numbers.
* Everything the two functions consume from outside the file (`mesh.h`, `move.h`,
  `bc.h`, `<cmath>`, the heap) is gathered in `Collaborators` and passed in.
* A run yields the final mesh, the list of observable events, and the fault that
  stopped it, if any.  Undefined behaviour and uncaught exceptions are faults.
* The progress lines written to `std::cout` are left out, except the warning.
-/

namespace ProteusCFD

/-- The values of the scalar type `Real` of the code. -/
abbrev Real := ℚ

/-- The element type keywords returned by `Element::GetType`. `TRI` and `QUAD` are the
two the code switches on; the other constructors stand for the remaining element
types, which all reach the default branch. -/
inductive EType
  | TRI | QUAD | TET | PYRAMID | PRISM | HEX
  deriving DecidableEq

/-- Number of nodes an element of a given type holds. -/
def EType.nnodes : EType → Nat
  | .TRI => 3
  | .QUAD => 4
  | .TET => 4
  | .PYRAMID => 5
  | .PRISM => 6
  | .HEX => 8

/-- An element: its type, its ordered node list and its factag. -/
structure Element where
  etype : EType
  nodes : List Nat
  factag : Int
  deriving DecidableEq

/-- The node array of an element has the length its type prescribes. -/
def Element.WF (e : Element) : Prop := e.nodes.length = e.etype.nnodes

instance (e : Element) : Decidable e.WF := by unfold Element.WF; infer_instance

/-- The mesh: one coordinate triple per node, and `elementList`. -/
structure Mesh where
  xyz : List (Real × Real × Real)
  elementList : List Element
  deriving DecidableEq

/-- Total node count, `Mesh::GetNumNodes`. -/
def Mesh.GetNumNodes (m : Mesh) : Nat := m.xyz.length

/-- Modelled from the spec: `Mesh::GetCoordsForPoints` (mesh.h is not part of the
sources), "coordinates for a set of points". -/
def Mesh.GetCoordsForPoints (m : Mesh) (pts : List Nat) : List (Real × Real × Real) :=
  pts.map (fun p => m.xyz.getD p (0, 0, 0))

/-- Modelled from the spec: `Mesh::AppendNodes` (mesh.h is not part of the sources),
"append N nodes given coordinates", at the end of the node storage. -/
def Mesh.AppendNodes (m : Mesh) (newxyz : List (Real × Real × Real)) : Mesh :=
  { m with xyz := m.xyz ++ newxyz }

/-- What a run can be observed to do, in order. -/
inductive Event
  | sizingQuery (factag : Int)
  | inflateCall (factag : Int) (distance : Real)
  | warnNoPoints (factag : Int)
  | smoother (dx : List Real) (iter : Nat)
  | typeNotInflatable
  | updateElementCounts
  | buildMaps
  | calcMetrics
  deriving DecidableEq

/-- What stops a run. -/
inductive Fault
  | abort
  | lengthError
  | outOfRange
  | nullDeref
  | outOfBounds
  deriving DecidableEq

/-- The outcome of a run: final mesh, events in order, and the fault if it did not
return normally. -/
structure Run where
  mesh : Mesh
  log : List Event
  fault : Option Fault
  deriving DecidableEq

/-- Sequencing: a faulted run stops, otherwise the continuation runs on its mesh. -/
def Run.next (r : Run) (k : Mesh → Run) : Run :=
  match r.fault with
  | some _ => r
  | none => ⟨(k r.mesh).mesh, r.log ++ (k r.mesh).log, (k r.mesh).fault⟩

/-- The operations consumed from outside `boundaryInflation.h`. The boundary
conditions object is fixed inside `GetBoundariesOnBCType`; `heap` gives the content
of freshly allocated, uninitialised scalars; `mul` is the operator `*` of `Real`, the
rounded product; `sqrt` is the library square root. -/
structure Collaborators where
  ComputeElementSizingAverageOnFactag : Mesh → Int → Real
  mul : Real → Real → Real
  sqrt : Real → Real
  FindPointsWithFactag : Mesh → Int → List Nat
  FindSurfaceElementsWithFactag : Mesh → Int → List Nat
  GetBoundariesOnBCType : Mesh → List Int
  GetNodeNeighborhoodNormal : Mesh → Nat → List Int → Real × Real × Real
  MoveMeshLinearElastic : Mesh → List Real → Nat → Mesh
  heap : Nat → Real

/-! ## InflateBoundary -/

/-- Lines 124-131: the displacement of every point of the factag is written to `dx`. -/
def fillDx (c : Collaborators) (m : Mesh) (symmBoundaryList : List Int)
    (inflationDistance : Real) : List Nat → List Real → Option (List Real)
  | [], dx => some dx
  | ptid :: pts, dx =>
    let normal := c.GetNodeNeighborhoodNormal m ptid symmBoundaryList
    if ptid * 3 + 2 < dx.length then
      fillDx c m symmBoundaryList inflationDistance pts
        (((dx.set (ptid * 3 + 0) (c.mul normal.1 inflationDistance)).set
          (ptid * 3 + 1) (c.mul normal.2.1 inflationDistance)).set
          (ptid * 3 + 2) (c.mul normal.2.2 inflationDistance))
    else none

/-- Lines 146-151: `nodemap[pts[jpt]] = jpt + oldnnode`; a later entry for the same
key shadows an earlier one, as assignment into a `std::map` does. -/
def buildNodeMap (oldnnode : Nat) : List Nat → Nat → List (Nat × Nat) → List (Nat × Nat)
  | [], _, nodemap => nodemap
  | nodeid :: pts, jpt, nodemap =>
    buildNodeMap oldnnode pts (jpt + 1) ((nodeid, jpt + oldnnode) :: nodemap)

/-- Lines 166-170: `newsurfnodes[j] = nodemap.at(oldsurfnodes[j])` into a buffer of
four entries. -/
def mapSurfNodes (nodemap : List (Nat × Nat)) : List Nat → Nat → Except Fault (List Nat)
  | [], _ => .ok []
  | s :: rest, j =>
    match nodemap.lookup s with
    | none => .error .outOfRange
    | some v =>
      if 4 ≤ j then .error .outOfBounds
      else
        match mapSurfNodes nodemap rest (j + 1) with
        | .error f => .error f
        | .ok vs => .ok (v :: vs)

/-- Lines 158-203: the body of the loop over the surface elements of the factag. -/
def stitchElement (nodemap : List (Nat × Nat)) (m : Mesh) (ielem : Nat) : Run :=
  match m.elementList[ielem]? with
  | none => ⟨m, [], some .outOfBounds⟩
  | some elemsurf =>
    let oldsurfnodes := elemsurf.nodes
    match mapSurfNodes nodemap oldsurfnodes 0 with
    | .error f => ⟨m, [], some f⟩
    | .ok newsurfnodes =>
      match elemsurf.etype with
      | .TRI =>
        if oldsurfnodes.length < 3 then ⟨m, [], some .outOfBounds⟩
        else
          let tempe : Element := ⟨.PRISM, oldsurfnodes.take 3 ++ newsurfnodes.take 3, -1⟩
          ⟨{ m with elementList :=
              (m.elementList ++ [tempe]).set ielem { elemsurf with nodes := newsurfnodes } },
            [], none⟩
      | .QUAD =>
        if oldsurfnodes.length < 4 then ⟨m, [], some .outOfBounds⟩
        else
          let tempe : Element := ⟨.HEX, oldsurfnodes.take 4 ++ newsurfnodes.take 4, -1⟩
          ⟨{ m with elementList :=
              (m.elementList ++ [tempe]).set ielem { elemsurf with nodes := newsurfnodes } },
            [], none⟩
      | _ => ⟨m, [.typeNotInflatable], some .nullDeref⟩

/-- Lines 157-204: the loop over `elementIds`. -/
def stitchLoop (nodemap : List (Nat × Nat)) : List Nat → Mesh → Run
  | [], m => ⟨m, [], none⟩
  | ielem :: rest, m => (stitchElement nodemap m ielem).next (stitchLoop nodemap rest)

/-- Lines 94-218. -/
def InflateBoundary (c : Collaborators) (boundaryFactag : Int) (inflationDistance : Real)
    (m : Mesh) : Run :=
  let iter := 10
  let dx := (List.range (m.GetNumNodes * 3)).map c.heap
  let pts := c.FindPointsWithFactag m boundaryFactag
  let npts := pts.length
  if npts = 0 then ⟨m, [.warnNoPoints boundaryFactag], none⟩
  else
    let oldxyz := m.GetCoordsForPoints pts
    let symmBoundaryList := c.GetBoundariesOnBCType m
    match fillDx c m symmBoundaryList inflationDistance pts dx with
    | none => ⟨m, [], some .outOfBounds⟩
    | some dx =>
      let elementIds := c.FindSurfaceElementsWithFactag m boundaryFactag
      let m1 := c.MoveMeshLinearElastic m dx iter
      let oldnnode := m1.GetNumNodes
      let m2 := m1.AppendNodes oldxyz
      let nodemap := buildNodeMap oldnnode pts 0 []
      (Run.mk m2 [.smoother dx iter] none).next fun m2 =>
        (stitchLoop nodemap elementIds m2).next fun m3 =>
          ⟨m3, [.updateElementCounts, .buildMaps, .calcMetrics], none⟩

/-! ## GenerateBoundaryLayers -/

/-- Lines 45-53: the loop that looks for the ideal number of layers; `mul` is the
product of `Real`. -/
def idealLayerLoop (mul : Real → Real → Real) (growthRate target : Real) :
    Nat → Nat → Real → Int
  | 0, _, _ => 0
  | fuel + 1, j, sizing =>
    if mul sizing growthRate > target then (j : Int) - 1
    else idealLayerLoop mul growthRate target fuel (j + 1) (mul sizing growthRate)

/-- The value of `ideallayers` after the loop of lines 47-53. -/
def idealLayers (mul : Real → Real → Real) (firstCellThickness growthRate target : Real) :
    Int :=
  idealLayerLoop mul growthRate target 100 0 firstCellThickness

/-- Lines 44-58: the value of `nlayers` used from line 62 on. -/
def layersUsed (mul : Real → Real → Real) (requested : Int)
    (firstCellThickness growthRate target : Real) : Int :=
  if requested < 0 then idealLayers mul firstCellThickness growthRate target else requested

/-- Conversion of an `int` to the unsigned 64-bit `size_type`. -/
def toSizeT (n : Int) : Nat := (n % 2 ^ 64).toNat

/-- The largest size a `std::vector<Real>` accepts (8-byte scalars, 64-bit
`ptrdiff_t`); a larger request throws `std::length_error`. -/
def vectorMaxSize : Nat := (2 ^ 63 - 1) / 8

/-- Lines 63-68: `distances[j] = dist; dist = dist * growthRate`; `mul` is the product
of `Real`. -/
def fillDistances (mul : Real → Real → Real) (growthRate : Real) : Nat → Real → List Real
  | 0, _ => []
  | n + 1, dist => dist :: fillDistances mul growthRate n (mul dist growthRate)

/-- Lines 76-83: `InflateBoundary(factag, distances[nlayers-j], bc, m)` for the given
values of `j`. -/
def inflateLoop (c : Collaborators) (factag : Int) (distances : List Real) (nlayers : Nat) :
    List Nat → Mesh → Run
  | [], m => ⟨m, [], none⟩
  | j :: js, m =>
    match distances[nlayers - j]? with
    | none => ⟨m, [], some .outOfBounds⟩
    | some d =>
      (Run.mk m [.inflateCall factag d] none).next fun m =>
        (InflateBoundary c factag d m).next (inflateLoop c factag distances nlayers js)

/-- Lines 36-83: the body of the loop over the factags. -/
def processFactag (c : Collaborators) (growthRate : Real) (factag : Int)
    (firstCellThickness : Real) (numberOfLayers : Int) (m : Mesh) : Run :=
  let avgsizing := c.ComputeElementSizingAverageOnFactag m factag
  let nlayers :=
    layersUsed c.mul numberOfLayers firstCellThickness growthRate (c.sqrt avgsizing)
  (Run.mk m [.sizingQuery factag] none).next fun m =>
    if vectorMaxSize < toSizeT nlayers then ⟨m, [], some .lengthError⟩
    else
      let distances := fillDistances c.mul growthRate nlayers.toNat firstCellThickness
      inflateLoop c factag distances nlayers.toNat (List.range' 1 nlayers.toNat) m

/-- Lines 35-84: the loop over the factags. -/
def factagLoop (c : Collaborators) (boundaryFactagList : List Int)
    (firstCellThicknesses : List Real) (numberOfLayers : List Int) (growthRate : Real) :
    List Nat → Mesh → Run
  | [], m => ⟨m, [], none⟩
  | i :: is, m =>
    match boundaryFactagList[i]?, firstCellThicknesses[i]?, numberOfLayers[i]? with
    | some factag, some t0, some n =>
      (processFactag c growthRate factag t0 n m).next
        (factagLoop c boundaryFactagList firstCellThicknesses numberOfLayers growthRate is)
    | _, _, _ => ⟨m, [], some .outOfBounds⟩

/-- Line 30: the sanity check on the three argument lengths. -/
def lengthMismatch (nFactags nThicknesses nLayers : Nat) : Bool :=
  (nFactags != nThicknesses) || (nLayers != nThicknesses)

/-- Lines 26-87. `Abort << ...` ends the run (exceptions.h is not part of the
sources; the spec calls it fatal). -/
def GenerateBoundaryLayers (c : Collaborators) (boundaryFactagList : List Int)
    (firstCellThicknesses : List Real) (numberOfLayers : List Int) (m : Mesh)
    (growthRate : Real) : Run :=
  if lengthMismatch boundaryFactagList.length firstCellThicknesses.length
      numberOfLayers.length then
    ⟨m, [], some .abort⟩
  else
    factagLoop c boundaryFactagList firstCellThicknesses numberOfLayers growthRate
      (List.range boundaryFactagList.length) m

/-! ## A concrete set of collaborators -/

/-- Modelled from the spec: `Mesh::FindSurfaceElementsWithFactag` (mesh.h is not part
of the sources), "surface element indices on a factag": the indices of the elements
that carry the factag, in element-list order. -/
def taggedElements (m : Mesh) (factag : Int) : List Nat :=
  (List.range m.elementList.length).filter fun i =>
    decide ((m.elementList[i]?).map Element.factag = some factag)

/-- Modelled from the spec: `Mesh::FindPointsWithFactag` (mesh.h is not part of the
sources), "point indices on a factag": the distinct nodes of the elements that carry
the factag. -/
def taggedPoints (m : Mesh) (factag : Int) : List Nat :=
  ((m.elementList.filter fun e => decide (e.factag = factag)).flatMap Element.nodes).dedup

/-- Collaborators for concrete runs: the two factag queries as modelled above, no
symmetry factag, the normal (0,0,1) everywhere, zeroed heap, a smoother that moves
each node by its own entry of the displacement field, and products without rounding
error. -/
def sampleCollaborators (avgsizing root : Real) : Collaborators where
  ComputeElementSizingAverageOnFactag := fun _ _ => avgsizing
  mul := fun a b => a * b
  sqrt := fun _ => root
  FindPointsWithFactag := taggedPoints
  FindSurfaceElementsWithFactag := taggedElements
  GetBoundariesOnBCType := fun _ => []
  GetNodeNeighborhoodNormal := fun _ _ _ => (0, 0, 1)
  MoveMeshLinearElastic := fun m dx _ =>
    { m with xyz := m.xyz.enum.map fun (i, p) =>
        (p.1 + dx.getD (3 * i) 0, p.2.1 + dx.getD (3 * i + 1) 0, p.2.2 + dx.getD (3 * i + 2) 0) }
  heap := fun _ => 0

/-- A patch of two triangles on the same three points, tagged 1, plus a fourth node
and a tetrahedron behind it. -/
def trianglePatch : Mesh where
  xyz := [(0, 0, 0), (1, 0, 0), (0, 1, 0), (0, 0, 1)]
  elementList := [⟨.TRI, [0, 1, 2], 1⟩, ⟨.TRI, [0, 2, 1], 1⟩, ⟨.TET, [0, 1, 2, 3], -1⟩]

/-- A patch of one quadrilateral on four points, tagged 2. -/
def quadPatch : Mesh where
  xyz := [(0, 0, 0), (1, 0, 0), (1, 1, 0), (0, 1, 0)]
  elementList := [⟨.QUAD, [0, 1, 2, 3], 2⟩]

/-! ## The statements' vocabulary -/

/-- The NodeMap as a function: the i-th point of the point list goes to node
`oldnnode + i`. -/
def nodeMapFn (oldnnode : Nat) (pts : List Nat) (p : Nat) : Nat := oldnnode + pts.indexOf p

/-- A surface element re-pointed through a node map: same type, same factag, every
node replaced by its partner, in the same order. -/
def remapElement (f : Nat → Nat) (e : Element) : Element := { e with nodes := e.nodes.map f }

/-- The volume element stitched from a surface element: a prism from a triangle, a
hexahedron otherwise, the surface element's nodes followed by their partners, tagged
with the interior sentinel. -/
def stitchedElement (f : Nat → Nat) (e : Element) : Element :=
  ⟨if e.etype = .TRI then .PRISM else .HEX, e.nodes ++ e.nodes.map f, -1⟩

/-- The `(factag, distance)` arguments of the `InflateBoundary` calls in a log. -/
def inflateCalls (log : List Event) : List (Int × Real) :=
  log.filterMap fun e =>
    match e with
    | .inflateCall factag d => some (factag, d)
    | _ => none

/-- The smoother changes coordinates only: element list and node count are kept. -/
def SmootherKeepsTopology (c : Collaborators) (m : Mesh) : Prop :=
  ∀ dx iter, (c.MoveMeshLinearElastic m dx iter).elementList = m.elementList ∧
    (c.MoveMeshLinearElastic m dx iter).GetNumNodes = m.GetNumNodes

/-- A surface element this file can inflate: a triangle or a quadrilateral with the
node count of its type. -/
def Element.Inflatable (e : Element) : Prop :=
  (e.etype = .TRI ∨ e.etype = .QUAD) ∧ e.WF

instance (e : Element) : Decidable e.Inflatable := by
  unfold Element.Inflatable; infer_instance

/-- The element list after stitching the elements `ids` of the list `before` through
the node map `f`: one element appended per entry of `ids`, in that order, the listed
elements re-pointed, the others kept. -/
structure ElementsStitched (f : Nat → Nat) (ids : List Nat) (before after : List Element) :
    Prop where
  length : after.length = before.length + ids.length
  surface : ∀ k, k < before.length →
    after[k]? = if k ∈ ids then (before[k]?).map (remapElement f) else before[k]?
  volume : ∀ k i, ids[k]? = some i →
    after[before.length + k]? = (before[i]?).map (stitchedElement f)

/-- What the stitching loop leaves behind when every listed element is inflatable and
all its nodes are keys of the node map. -/
structure StitchResult (f : Nat → Nat) (ids : List Nat) (m : Mesh) (r : Run) : Prop where
  fault : r.fault = none
  log : r.log = []
  xyz : r.mesh.xyz = m.xyz
  elements : ElementsStitched f ids m.elementList r.mesh.elementList

/-- The setting of one layer insertion: the factag has at least one point, its points
are distinct nodes of the mesh, its surface elements are distinct elements of the
mesh, each a triangle or quadrilateral on points of the factag, and the smoother
changes coordinates only. -/
structure InflatablePatch (c : Collaborators) (boundaryFactag : Int) (m : Mesh) : Prop where
  nonempty : c.FindPointsWithFactag m boundaryFactag ≠ []
  distinct : (c.FindPointsWithFactag m boundaryFactag).Nodup
  inMesh : ∀ p ∈ c.FindPointsWithFactag m boundaryFactag, p < m.GetNumNodes
  idsDistinct : (c.FindSurfaceElementsWithFactag m boundaryFactag).Nodup
  elements : ∀ i ∈ c.FindSurfaceElementsWithFactag m boundaryFactag,
    ∃ e, m.elementList[i]? = some e ∧ e.Inflatable ∧
      ∀ s ∈ e.nodes, s ∈ c.FindPointsWithFactag m boundaryFactag
  smoother : SmootherKeepsTopology c m

/-- What one layer insertion leaves behind on an inflatable patch. -/
structure InflateResult (c : Collaborators) (boundaryFactag : Int) (m : Mesh) (r : Run) :
    Prop where
  fault : r.fault = none
  log : ∃ dx, r.log = [.smoother dx 10, .updateElementCounts, .buildMaps, .calcMetrics]
  nnode : r.mesh.GetNumNodes =
    m.GetNumNodes + (c.FindPointsWithFactag m boundaryFactag).length
  elements : ElementsStitched
    (nodeMapFn m.GetNumNodes (c.FindPointsWithFactag m boundaryFactag))
    (c.FindSurfaceElementsWithFactag m boundaryFactag) m.elementList r.mesh.elementList

/-- The thickness sequence in the spec's words: `thickness[0] = firstCellThickness`,
`thickness[k] = thickness[k-1] * growthRate`, each product being the product `mul` of
`Real`. -/
def thickness (mul : Real → Real → Real) (t0 g : Real) : Nat → Real
  | 0 => t0
  | k + 1 => mul (thickness mul t0 g k) g

/-- The schedule of one tuple: `n` calls on the factag, the one at position `j`
(counted from 0) with distance `thickness[n - 1 - j]`. -/
def layerSchedule (mul : Real → Real → Real) (factag : Int) (t0 g : Real) (n : Nat) :
    List (Int × Real) :=
  (List.range n).map fun j => (factag, thickness mul t0 g (n - 1 - j))

/-- The mesh left by a sequence of `InflateBoundary` calls, each made on the mesh the
previous one left. -/
def meshAfterCalls (c : Collaborators) : List (Int × Real) → Mesh → Mesh
  | [], m => m
  | (factag, d) :: rest, m => meshAfterCalls c rest (InflateBoundary c factag d m).mesh

/-- The two factag queries as the mesh answers them on every state: the surface
elements of the factag are the elements that carry it, its points are distinct and
are exactly the nodes of those elements; and the smoother changes coordinates only. -/
structure FactagQueries (c : Collaborators) (factag : Int) : Prop where
  surface : ∀ m, c.FindSurfaceElementsWithFactag m factag = taggedElements m factag
  pointsDistinct : ∀ m, (c.FindPointsWithFactag m factag).Nodup
  points : ∀ m p, p ∈ c.FindPointsWithFactag m factag ↔
    ∃ e ∈ m.elementList, e.factag = factag ∧ p ∈ e.nodes
  smoother : ∀ m, SmootherKeepsTopology c m

/-- Every element that carries the factag is a triangle or quadrilateral with the node
count of its type, on nodes of the mesh. -/
def PatchValid (m : Mesh) (factag : Int) : Prop :=
  ∀ e ∈ m.elementList, e.factag = factag →
    e.Inflatable ∧ ∀ s ∈ e.nodes, s < m.GetNumNodes

/-- A patch on factag 1 whose first element is not a triangle or quadrilateral (a
four-node element of type TET), followed by a triangle. -/
def mixedPatch : Mesh where
  xyz := [(0, 0, 0), (1, 0, 0), (0, 1, 0), (0, 0, 1)]
  elementList := [⟨.TET, [0, 1, 2, 3], 1⟩, ⟨.TRI, [0, 1, 2], 1⟩]

/-- The sample collaborators on a heap whose fresh scalars all hold 7. -/
def usedHeapCollaborators : Collaborators :=
  { sampleCollaborators 1 1 with heap := fun _ => 7 }

/-- Quotient `p / q` rounded to the nearest integer, ties to the even one. -/
def roundHalfEven (p q : Nat) : Nat :=
  let fl := p / q
  let r := p % q
  if 2 * r < q then fl else if q < 2 * r then fl + 1 else if fl % 2 = 0 then fl else fl + 1

/-- Floor of the binary logarithm of `n` (0 for `n < 2`), for `n` at most the fuel. -/
def floorLog2 : Nat → Nat → Nat
  | 0, _ => 0
  | fuel + 1, n => if n < 2 then 0 else floorLog2 fuel (n / 2) + 1

/-- Rounding of a rational to the nearest value with a 53-bit significand, ties to
even: the rounding of IEEE 754 binary64 (`double`) for results in the normal range
(no overflow, no subnormal result). With `2 ^ e <= |x| < 2 ^ (e+1)` the result is the
multiple of `2 ^ (e - 52)` nearest to `x`. -/
def roundDouble (x : Real) : Real :=
  if x = 0 then 0 else
    let n := x.num.natAbs
    let d := x.den
    let e0 : Int := (floorLog2 n n : Int) - (floorLog2 d d : Int)
    let below : Bool :=
      if 0 ≤ e0 then decide (2 ^ e0.toNat * d ≤ n) else decide (d ≤ n * 2 ^ (-e0).toNat)
    let e : Int := if below then e0 else e0 - 1
    let shift : Int := 52 - e
    let mag : Real :=
      if 0 ≤ shift then (roundHalfEven (n * 2 ^ shift.toNat) d : Real) / 2 ^ shift.toNat
      else (roundHalfEven n (d * 2 ^ (-shift).toNat) : Real) * 2 ^ (-shift).toNat
    if x < 0 then -mag else mag

/-- The product of two `double` values: the exact product, rounded. -/
def mulDouble (a b : Real) : Real := roundDouble (a * b)

/-- The sample collaborators with the product of `double`. -/
def doubleCollaborators (avgsizing root : Real) : Collaborators :=
  { sampleCollaborators avgsizing root with mul := mulDouble }

/-! ## Lemmas on the node map and the stitching loop -/

theorem lookup_buildNodeMap_of_not_mem (oldnnode : Nat) (p : Nat) :
    ∀ (pts : List Nat) (j : Nat) (nodemap : List (Nat × Nat)), p ∉ pts →
      (buildNodeMap oldnnode pts j nodemap).lookup p = nodemap.lookup p := by
  intro pts
  induction pts with
  | nil => intro j nodemap _; rfl
  | cons q pts ih =>
    intro j nodemap hp
    have hq : p ≠ q := fun h => hp (h ▸ List.mem_cons_self _ _)
    have hp2 : p ∉ pts := fun h => hp (List.mem_cons_of_mem _ h)
    have hb : (p == q) = false := by simpa using hq
    rw [buildNodeMap, ih _ _ hp2]
    simp [List.lookup, hb]

theorem lookup_buildNodeMap (oldnnode : Nat) (p : Nat) :
    ∀ (pts : List Nat) (j : Nat) (nodemap : List (Nat × Nat)), pts.Nodup → p ∈ pts →
      (buildNodeMap oldnnode pts j nodemap).lookup p = some (j + pts.indexOf p + oldnnode) := by
  intro pts
  induction pts with
  | nil => intro j nodemap _ hp; simp at hp
  | cons q pts ih =>
    intro j nodemap hnd hp
    have hq : q ∉ pts := (List.nodup_cons.mp hnd).1
    by_cases h : p = q
    · subst h
      rw [buildNodeMap, lookup_buildNodeMap_of_not_mem _ _ _ _ _ hq]
      simp [List.lookup]
    · have hp2 : p ∈ pts := by
        rcases List.mem_cons.mp hp with h1 | h1
        · exact absurd h1 h
        · exact h1
      rw [buildNodeMap, ih _ _ (List.nodup_cons.mp hnd).2 hp2]
      rw [List.indexOf_cons_ne _ (Ne.symm h)]
      congr 1
      omega

theorem nodemap_at (oldnnode : Nat) (pts : List Nat) (hnd : pts.Nodup) (p : Nat)
    (hp : p ∈ pts) :
    (buildNodeMap oldnnode pts 0 []).lookup p = some (nodeMapFn oldnnode pts p) := by
  rw [lookup_buildNodeMap oldnnode p pts 0 [] hnd hp, nodeMapFn]
  congr 1
  omega

theorem mapSurfNodes_ok (nodemap : List (Nat × Nat)) (f : Nat → Nat) :
    ∀ (nodes : List Nat) (j : Nat), (∀ s ∈ nodes, nodemap.lookup s = some (f s)) →
      j + nodes.length ≤ 4 → mapSurfNodes nodemap nodes j = .ok (nodes.map f) := by
  intro nodes
  induction nodes with
  | nil => intro j _ _; rfl
  | cons s rest ih =>
    intro j hl hj
    have hj4 : ¬ 4 ≤ j := by simp at hj; omega
    have hrest : mapSurfNodes nodemap rest (j + 1) = .ok (rest.map f) :=
      ih (j + 1) (fun t ht => hl t (List.mem_cons_of_mem _ ht)) (by simp at hj; omega)
    simp [mapSurfNodes, hl s (List.mem_cons_self _ _), hj4, hrest]

theorem stitchElement_ok (nodemap : List (Nat × Nat)) (f : Nat → Nat) (m : Mesh) (i : Nat)
    (e : Element) (he : m.elementList[i]? = some e) (hinf : e.Inflatable)
    (hl : ∀ s ∈ e.nodes, nodemap.lookup s = some (f s)) :
    stitchElement nodemap m i =
      ⟨{ m with elementList :=
          (m.elementList ++ [stitchedElement f e]).set i (remapElement f e) }, [], none⟩ := by
  obtain ⟨hty, hwf⟩ := hinf
  unfold Element.WF at hwf
  rcases hty with hty | hty
  · rw [hty] at hwf
    have h3 : e.nodes.length = 3 := hwf
    have hmap : mapSurfNodes nodemap e.nodes 0 = .ok (e.nodes.map f) :=
      mapSurfNodes_ok nodemap f e.nodes 0 hl (by omega)
    have ht1 : e.nodes.take 3 = e.nodes := List.take_of_length_le (by omega)
    have ht2 : (e.nodes.map f).take 3 = e.nodes.map f :=
      List.take_of_length_le (by simp; omega)
    simp [stitchElement, he, hmap, hty, h3, ht1, ht2, stitchedElement, remapElement]
  · rw [hty] at hwf
    have h4 : e.nodes.length = 4 := hwf
    have hmap : mapSurfNodes nodemap e.nodes 0 = .ok (e.nodes.map f) :=
      mapSurfNodes_ok nodemap f e.nodes 0 hl (by omega)
    have ht1 : e.nodes.take 4 = e.nodes := List.take_of_length_le (by omega)
    have ht2 : (e.nodes.map f).take 4 = e.nodes.map f :=
      List.take_of_length_le (by simp; omega)
    simp [stitchElement, he, hmap, hty, h4, ht1, ht2, stitchedElement, remapElement]

theorem stitchLoop_spec (nodemap : List (Nat × Nat)) (f : Nat → Nat) :
    ∀ (ids : List Nat) (m : Mesh), ids.Nodup →
      (∀ i ∈ ids, ∃ e, m.elementList[i]? = some e ∧ e.Inflatable ∧
        ∀ s ∈ e.nodes, nodemap.lookup s = some (f s)) →
      StitchResult f ids m (stitchLoop nodemap ids m) := by
  intro ids
  induction ids with
  | nil =>
    intro m _ _
    exact ⟨rfl, rfl, rfl, by simp [stitchLoop], by intro k _; simp [stitchLoop],
      by intro k i h; simp at h⟩
  | cons i rest ih =>
    intro m hnd hgood
    obtain ⟨e, he, hinf, hl⟩ := hgood i (List.mem_cons_self _ _)
    have hi : i < m.elementList.length := by
      obtain ⟨h, _⟩ := List.getElem?_eq_some.mp he
      exact h
    have hirest : i ∉ rest := (List.nodup_cons.mp hnd).1
    have hrest_lt : ∀ j ∈ rest, j < m.elementList.length := by
      intro j hj
      obtain ⟨e', he', _⟩ := hgood j (List.mem_cons_of_mem _ hj)
      obtain ⟨h, _⟩ := List.getElem?_eq_some.mp he'
      exact h
    let m1 : Mesh := { m with elementList :=
      (m.elementList ++ [stitchedElement f e]).set i (remapElement f e) }
    have hlen1 : m1.elementList.length = m.elementList.length + 1 := by
      simp [m1]
    have hget1 : ∀ k, k < m.elementList.length → k ≠ i →
        m1.elementList[k]? = m.elementList[k]? := by
      intro k hk hki
      show ((m.elementList ++ [stitchedElement f e]).set i (remapElement f e))[k]? = _
      rw [List.getElem?_set_ne (Ne.symm hki), List.getElem?_append_left hk]
    have hgeti : m1.elementList[i]? = some (remapElement f e) := by
      show ((m.elementList ++ [stitchedElement f e]).set i (remapElement f e))[i]? = _
      rw [List.getElem?_set]
      simp
      omega
    have hlast : m1.elementList[m.elementList.length]? = some (stitchedElement f e) := by
      show ((m.elementList ++ [stitchedElement f e]).set i (remapElement f e))[_]? = _
      rw [List.getElem?_set_ne (by omega), List.getElem?_concat_length]
    have hih := ih m1 (List.nodup_cons.mp hnd).2 (by
      intro j hj
      obtain ⟨e', he', hinf', hl'⟩ := hgood j (List.mem_cons_of_mem _ hj)
      have hji : j ≠ i := fun h => hirest (h ▸ hj)
      exact ⟨e', by rw [hget1 j (hrest_lt j hj) hji]; exact he', hinf', hl'⟩)
    have hstep : stitchLoop nodemap (i :: rest) m =
        ⟨(stitchLoop nodemap rest m1).mesh, (stitchLoop nodemap rest m1).log,
          (stitchLoop nodemap rest m1).fault⟩ := by
      rw [stitchLoop, stitchElement_ok nodemap f m i e he hinf hl]
      simp [Run.next, m1]
    rw [hstep]
    refine ⟨hih.fault, hih.log, hih.xyz, ?_, ?_, ?_⟩
    · show (stitchLoop nodemap rest m1).mesh.elementList.length = _
      rw [hih.elements.length, hlen1]
      simp
      omega
    · intro k hk
      show (stitchLoop nodemap rest m1).mesh.elementList[k]? = _
      rw [hih.elements.surface k (by omega)]
      by_cases hki : k = i
      · subst hki
        simp [hirest, hgeti, he]
      · have hmem : k ∈ i :: rest ↔ k ∈ rest := by simp [hki]
        simp only [hmem, hget1 k hk hki]
    · intro k j hkj
      show (stitchLoop nodemap rest m1).mesh.elementList[m.elementList.length + k]? = _
      cases k with
      | zero =>
        simp at hkj
        subst hkj
        have hnot : m.elementList.length ∉ rest := fun h => by
          have := hrest_lt _ h
          omega
        rw [Nat.add_zero, hih.elements.surface _ (by omega), if_neg hnot, hlast, he]
        rfl
      | succ k =>
        simp at hkj
        have hjmem : j ∈ rest := List.mem_iff_getElem?.mpr ⟨k, hkj⟩
        have hji : j ≠ i := fun h => hirest (h ▸ hjmem)
        have := hih.elements.volume k j hkj
        rw [hlen1, hget1 j (hrest_lt j hjmem) hji] at this
        rw [← this]
        congr 1
        omega

theorem fillDx_isSome (c : Collaborators) (m : Mesh) (symm : List Int) (d : Real) :
    ∀ (pts : List Nat) (dx : List Real), (∀ p ∈ pts, p * 3 + 2 < dx.length) →
      ∃ dx1, fillDx c m symm d pts dx = some dx1 := by
  intro pts
  induction pts with
  | nil => intro dx _; exact ⟨dx, rfl⟩
  | cons p pts ih =>
    intro dx h
    have hp : p * 3 + 2 < dx.length := h p (List.mem_cons_self _ _)
    rw [fillDx]
    simp only [hp, if_true]
    apply ih
    intro q hq
    simpa using h q (List.mem_cons_of_mem _ hq)

theorem InflateBoundary_spec (c : Collaborators) (boundaryFactag : Int) (d : Real) (m : Mesh)
    (h : InflatablePatch c boundaryFactag m) :
    InflateResult c boundaryFactag m (InflateBoundary c boundaryFactag d m) := by
  have hne : (c.FindPointsWithFactag m boundaryFactag).length ≠ 0 := by
    intro h0
    exact h.nonempty (List.length_eq_zero.mp h0)
  obtain ⟨dx, hdx⟩ := fillDx_isSome c m (c.GetBoundariesOnBCType m) d
    (c.FindPointsWithFactag m boundaryFactag) ((List.range (m.GetNumNodes * 3)).map c.heap)
    (by intro p hp; have := h.inMesh p hp; simp; omega)
  obtain ⟨hel, hnn⟩ := h.smoother dx 10
  have hS := stitchLoop_spec
    (buildNodeMap (c.MoveMeshLinearElastic m dx 10).GetNumNodes
      (c.FindPointsWithFactag m boundaryFactag) 0 [])
    (nodeMapFn m.GetNumNodes (c.FindPointsWithFactag m boundaryFactag))
    (c.FindSurfaceElementsWithFactag m boundaryFactag)
    ((c.MoveMeshLinearElastic m dx 10).AppendNodes
      (m.GetCoordsForPoints (c.FindPointsWithFactag m boundaryFactag)))
    h.idsDistinct (by
      intro i hi
      obtain ⟨e, he, hinf, hnodes⟩ := h.elements i hi
      refine ⟨e, ?_, hinf, ?_⟩
      · show (c.MoveMeshLinearElastic m dx 10).elementList[i]? = some e
        rw [hel]; exact he
      · intro s hs
        rw [hnn]
        exact nodemap_at _ _ h.distinct s (hnodes s hs))
  have heq : InflateBoundary c boundaryFactag d m =
      ⟨(stitchLoop (buildNodeMap (c.MoveMeshLinearElastic m dx 10).GetNumNodes
          (c.FindPointsWithFactag m boundaryFactag) 0 [])
          (c.FindSurfaceElementsWithFactag m boundaryFactag)
          ((c.MoveMeshLinearElastic m dx 10).AppendNodes
            (m.GetCoordsForPoints (c.FindPointsWithFactag m boundaryFactag)))).mesh,
        [.smoother dx 10, .updateElementCounts, .buildMaps, .calcMetrics], none⟩ := by
    simp [InflateBoundary, hne, hdx, Run.next, hS.fault, hS.log]
  have hel2 : ((c.MoveMeshLinearElastic m dx 10).AppendNodes
      (m.GetCoordsForPoints (c.FindPointsWithFactag m boundaryFactag))).elementList =
      m.elementList := hel
  have hE := hS.elements
  rw [hel2] at hE
  rw [heq]
  refine ⟨rfl, ⟨dx, rfl⟩, ?_, hE⟩
  show List.length (Mesh.xyz _) = _
  rw [hS.xyz]
  have hnn2 : (c.MoveMeshLinearElastic m dx 10).xyz.length = m.xyz.length := hnn
  simp [Mesh.AppendNodes, Mesh.GetCoordsForPoints, hnn2, Mesh.GetNumNodes]

theorem sampleCollaborators_smoother (a r : Real) (m : Mesh) :
    SmootherKeepsTopology (sampleCollaborators a r) m := by
  intro dx iter
  constructor
  · rfl
  · simp [sampleCollaborators, Mesh.GetNumNodes]

theorem trianglePatch_inflatable (a r : Real) :
    InflatablePatch (sampleCollaborators a r) 1 trianglePatch where
  nonempty := by show taggedPoints trianglePatch 1 ≠ []; decide
  distinct := by show (taggedPoints trianglePatch 1).Nodup; decide
  inMesh := by show ∀ p ∈ taggedPoints trianglePatch 1, p < trianglePatch.GetNumNodes; decide
  idsDistinct := by show (taggedElements trianglePatch 1).Nodup; decide
  elements := by
    show ∀ i ∈ taggedElements trianglePatch 1, ∃ e, trianglePatch.elementList[i]? = some e ∧
      e.Inflatable ∧ ∀ s ∈ e.nodes, s ∈ taggedPoints trianglePatch 1
    have hids : taggedElements trianglePatch 1 = [0, 1] := by decide
    rw [hids]
    intro i hi
    simp at hi
    rcases hi with hi | hi
    · subst hi; exact ⟨⟨.TRI, [0, 1, 2], 1⟩, rfl, ⟨Or.inl rfl, rfl⟩, by decide⟩
    · subst hi; exact ⟨⟨.TRI, [0, 2, 1], 1⟩, rfl, ⟨Or.inl rfl, rfl⟩, by decide⟩
  smoother := sampleCollaborators_smoother a r trianglePatch

theorem quadPatch_inflatable (a r : Real) :
    InflatablePatch (sampleCollaborators a r) 2 quadPatch where
  nonempty := by show taggedPoints quadPatch 2 ≠ []; decide
  distinct := by show (taggedPoints quadPatch 2).Nodup; decide
  inMesh := by show ∀ p ∈ taggedPoints quadPatch 2, p < quadPatch.GetNumNodes; decide
  idsDistinct := by show (taggedElements quadPatch 2).Nodup; decide
  elements := by
    show ∀ i ∈ taggedElements quadPatch 2, ∃ e, quadPatch.elementList[i]? = some e ∧
      e.Inflatable ∧ ∀ s ∈ e.nodes, s ∈ taggedPoints quadPatch 2
    have hids : taggedElements quadPatch 2 = [0] := by decide
    rw [hids]
    intro i hi
    simp at hi
    subst hi
    exact ⟨⟨.QUAD, [0, 1, 2, 3], 2⟩, rfl, ⟨Or.inr rfl, rfl⟩, by decide⟩
  smoother := sampleCollaborators_smoother a r quadPatch

/-! ## One layer: counts, stitching, re-pointing (C1, C3, C4) -/

/-- C1: on an inflatable patch with P points and S surface elements, one call of
`InflateBoundary` returns normally, raises the node count by exactly P and the length
of the element list by exactly S, and every element at an appended position carries
factag -1. -/
theorem inflateBoundary_counts (c : Collaborators) (boundaryFactag : Int) (d : Real)
    (m : Mesh) (h : InflatablePatch c boundaryFactag m) :
    (InflateBoundary c boundaryFactag d m).fault = none ∧
    (InflateBoundary c boundaryFactag d m).mesh.GetNumNodes =
      m.GetNumNodes + (c.FindPointsWithFactag m boundaryFactag).length ∧
    (InflateBoundary c boundaryFactag d m).mesh.elementList.length =
      m.elementList.length + (c.FindSurfaceElementsWithFactag m boundaryFactag).length ∧
    ∀ k, m.elementList.length ≤ k →
      k < (InflateBoundary c boundaryFactag d m).mesh.elementList.length →
      ∃ e, (InflateBoundary c boundaryFactag d m).mesh.elementList[k]? = some e ∧
        e.factag = -1 := by
  have hR := InflateBoundary_spec c boundaryFactag d m h
  refine ⟨hR.fault, hR.nnode, hR.elements.length, ?_⟩
  intro k hk1 hk2
  rw [hR.elements.length] at hk2
  obtain ⟨k1, rfl⟩ : ∃ k1, k = m.elementList.length + k1 := ⟨k - m.elementList.length, by omega⟩
  have hk1 : k1 < (c.FindSurfaceElementsWithFactag m boundaryFactag).length := by omega
  have hid : (c.FindSurfaceElementsWithFactag m boundaryFactag)[k1]? =
      some ((c.FindSurfaceElementsWithFactag m boundaryFactag)[k1]) :=
    List.getElem?_eq_getElem hk1
  obtain ⟨e, he, _, _⟩ := h.elements _ (List.getElem_mem hk1)
  refine ⟨stitchedElement
    (nodeMapFn m.GetNumNodes (c.FindPointsWithFactag m boundaryFactag)) e, ?_, rfl⟩
  rw [hR.elements.volume k1 _ hid, he]
  rfl

/-- C1 at the triangle patch: three points and two triangles on factag 1 give three
more nodes and two more elements. -/
theorem inflateBoundary_counts_witness :
    InflatablePatch (sampleCollaborators 1 1) 1 trianglePatch ∧
    (InflateBoundary (sampleCollaborators 1 1) 1 (1 / 20) trianglePatch).mesh.GetNumNodes =
      4 + 3 ∧
    (InflateBoundary (sampleCollaborators 1 1) 1 (1 / 20) trianglePatch).mesh.elementList.length =
      3 + 2 :=
  ⟨trianglePatch_inflatable 1 1,
    (inflateBoundary_counts (sampleCollaborators 1 1) 1 (1 / 20) trianglePatch
      (trianglePatch_inflatable 1 1)).2.1,
    (inflateBoundary_counts (sampleCollaborators 1 1) 1 (1 / 20) trianglePatch
      (trianglePatch_inflatable 1 1)).2.2.1⟩

/-- C3: on an inflatable patch, the k-th surface element of the factag gets exactly
one volume element, at position (old element count + k): a prism on
[s0,s1,s2,m(s0),m(s1),m(s2)] for a triangle [s0,s1,s2], a hexahedron on
[s0,s1,s2,s3,m(s0),m(s1),m(s2),m(s3)] for a quadrilateral [s0,s1,s2,s3], where m
sends the i-th point of the factag to node (node count before the append + i). -/
theorem inflateBoundary_stitches (c : Collaborators) (boundaryFactag : Int) (d : Real)
    (m : Mesh) (h : InflatablePatch c boundaryFactag m) :
    (InflateBoundary c boundaryFactag d m).mesh.elementList.length =
      m.elementList.length + (c.FindSurfaceElementsWithFactag m boundaryFactag).length ∧
    (∀ i p, (c.FindPointsWithFactag m boundaryFactag)[i]? = some p →
      nodeMapFn m.GetNumNodes (c.FindPointsWithFactag m boundaryFactag) p =
        m.GetNumNodes + i) ∧
    ∀ k i e, (c.FindSurfaceElementsWithFactag m boundaryFactag)[k]? = some i →
      m.elementList[i]? = some e →
      (e.etype = .TRI → ∃ s0 s1 s2, e.nodes = [s0, s1, s2] ∧
        (InflateBoundary c boundaryFactag d m).mesh.elementList[m.elementList.length + k]? =
          some ⟨.PRISM,
            [s0, s1, s2,
              nodeMapFn m.GetNumNodes (c.FindPointsWithFactag m boundaryFactag) s0,
              nodeMapFn m.GetNumNodes (c.FindPointsWithFactag m boundaryFactag) s1,
              nodeMapFn m.GetNumNodes (c.FindPointsWithFactag m boundaryFactag) s2], -1⟩) ∧
      (e.etype = .QUAD → ∃ s0 s1 s2 s3, e.nodes = [s0, s1, s2, s3] ∧
        (InflateBoundary c boundaryFactag d m).mesh.elementList[m.elementList.length + k]? =
          some ⟨.HEX,
            [s0, s1, s2, s3,
              nodeMapFn m.GetNumNodes (c.FindPointsWithFactag m boundaryFactag) s0,
              nodeMapFn m.GetNumNodes (c.FindPointsWithFactag m boundaryFactag) s1,
              nodeMapFn m.GetNumNodes (c.FindPointsWithFactag m boundaryFactag) s2,
              nodeMapFn m.GetNumNodes (c.FindPointsWithFactag m boundaryFactag) s3], -1⟩) := by
  have hR := InflateBoundary_spec c boundaryFactag d m h
  refine ⟨hR.elements.length, ?_, ?_⟩
  · intro i p hip
    obtain ⟨hi, hp⟩ := List.getElem?_eq_some.mp hip
    rw [nodeMapFn, ← hp, List.indexOf_getElem h.distinct i hi]
  · intro k i e hki hie
    have hvol := hR.elements.volume k i hki
    rw [hie] at hvol
    have hwf : e.nodes.length = e.etype.nnodes := by
      obtain ⟨e1, he1, hinf, _⟩ := h.elements i (List.mem_iff_getElem?.mpr ⟨k, hki⟩)
      rw [hie] at he1
      cases he1
      exact hinf.2
    constructor
    · intro hty
      rw [hty] at hwf
      match hn : e.nodes, hwf with
      | [s0, s1, s2], _ =>
        refine ⟨s0, s1, s2, rfl, ?_⟩
        rw [hvol]
        simp [stitchedElement, hty, hn]
    · intro hty
      rw [hty] at hwf
      match hn : e.nodes, hwf with
      | [s0, s1, s2, s3], _ =>
        refine ⟨s0, s1, s2, s3, rfl, ?_⟩
        rw [hvol]
        simp [stitchedElement, hty, hn]

/-- C3 at the quadrilateral patch: one quadrilateral on four points gives one
hexahedron on the four old and the four appended nodes. -/
theorem inflateBoundary_stitches_witness :
    InflatablePatch (sampleCollaborators 1 1) 2 quadPatch ∧
    (InflateBoundary (sampleCollaborators 1 1) 2 (1 / 20) quadPatch).mesh.elementList[1]? =
      some ⟨.HEX, [0, 1, 2, 3, 4, 5, 6, 7], -1⟩ := by
  refine ⟨quadPatch_inflatable 1 1, ?_⟩
  obtain ⟨s0, s1, s2, s3, hn, hv⟩ :=
    ((inflateBoundary_stitches (sampleCollaborators 1 1) 2 (1 / 20) quadPatch
      (quadPatch_inflatable 1 1)).2.2 0 0 ⟨.QUAD, [0, 1, 2, 3], 2⟩ (by decide) (by decide)).2 rfl
  simp at hn
  obtain ⟨rfl, rfl, rfl, rfl⟩ := hn
  have hv1 : (InflateBoundary (sampleCollaborators 1 1) 2 (1 / 20)
      quadPatch).mesh.elementList[1]? = _ := hv
  rw [hv1]
  decide

/-- C4: on an inflatable patch, every surface element of the factag keeps its type
and factag and has each node replaced, in place and in order, by its NodeMap partner;
the new node list has the old length, and every node in it is one of the appended
nodes: at least the node count before the append, below the new node count. -/
theorem inflateBoundary_repoints (c : Collaborators) (boundaryFactag : Int) (d : Real)
    (m : Mesh) (h : InflatablePatch c boundaryFactag m) :
    ∀ i e, i ∈ c.FindSurfaceElementsWithFactag m boundaryFactag →
      m.elementList[i]? = some e →
      (InflateBoundary c boundaryFactag d m).mesh.elementList[i]? =
        some ⟨e.etype,
          e.nodes.map (nodeMapFn m.GetNumNodes (c.FindPointsWithFactag m boundaryFactag)),
          e.factag⟩ ∧
      (e.nodes.map
        (nodeMapFn m.GetNumNodes (c.FindPointsWithFactag m boundaryFactag))).length =
          e.nodes.length ∧
      ∀ t ∈ e.nodes.map (nodeMapFn m.GetNumNodes (c.FindPointsWithFactag m boundaryFactag)),
        m.GetNumNodes ≤ t ∧ t < (InflateBoundary c boundaryFactag d m).mesh.GetNumNodes := by
  intro i e hi hie
  have hR := InflateBoundary_spec c boundaryFactag d m h
  have hlt : i < m.elementList.length := (List.getElem?_eq_some.mp hie).1
  refine ⟨?_, by simp, ?_⟩
  · rw [hR.elements.surface i hlt, if_pos hi, hie]
    rfl
  · intro t ht
    obtain ⟨s, hs, rfl⟩ := List.mem_map.mp ht
    obtain ⟨e1, he1, _, hnodes⟩ := h.elements i hi
    rw [hie] at he1
    cases he1
    have hidx := List.indexOf_lt_length.mpr (hnodes s hs)
    rw [hR.nnode]
    unfold nodeMapFn
    omega

/-- C4 at the triangle patch: the first triangle [0,1,2] of factag 1 is re-pointed to
the appended nodes [4,6,5]. -/
theorem inflateBoundary_repoints_witness :
    InflatablePatch (sampleCollaborators 1 1) 1 trianglePatch ∧
    (InflateBoundary (sampleCollaborators 1 1) 1 (1 / 20) trianglePatch).mesh.elementList[0]? =
      some ⟨.TRI, [4, 6, 5], 1⟩ := by
  refine ⟨trianglePatch_inflatable 1 1, ?_⟩
  rw [(inflateBoundary_repoints (sampleCollaborators 1 1) 1 (1 / 20) trianglePatch
    (trianglePatch_inflatable 1 1) 0 ⟨.TRI, [0, 1, 2], 1⟩ (by decide) (by decide)).1]
  decide

/-! ## The empty factag (C6) -/

/-- C6: when the factag has no tagged point, `InflateBoundary` returns normally with
the mesh it was given, and the only event is the warning: the smoother and the
rebuild of counts, maps and metrics are not invoked. -/
theorem inflateBoundary_no_points (c : Collaborators) (boundaryFactag : Int) (d : Real)
    (m : Mesh) (h : c.FindPointsWithFactag m boundaryFactag = []) :
    InflateBoundary c boundaryFactag d m = ⟨m, [.warnNoPoints boundaryFactag], none⟩ := by
  simp [InflateBoundary, h]

/-- C6 at the triangle patch: factag 7 has no point there. -/
theorem inflateBoundary_no_points_witness :
    (sampleCollaborators 1 1).FindPointsWithFactag trianglePatch 7 = [] ∧
    InflateBoundary (sampleCollaborators 1 1) 7 (1 / 20) trianglePatch =
      ⟨trianglePatch, [.warnNoPoints 7], none⟩ :=
  ⟨by decide, inflateBoundary_no_points (sampleCollaborators 1 1) 7 (1 / 20) trianglePatch
    (by decide)⟩

/-! ## The length check (C7) -/

theorem next_fault_ne_abort (r : Run) (k : Mesh → Run) (h1 : r.fault ≠ some .abort)
    (h2 : ∀ m, (k m).fault ≠ some .abort) : (r.next k).fault ≠ some .abort := by
  unfold Run.next
  split
  · exact h1
  · exact h2 _

theorem mapSurfNodes_ne_abort (nodemap : List (Nat × Nat)) :
    ∀ (nodes : List Nat) (j : Nat), mapSurfNodes nodemap nodes j ≠ .error .abort := by
  intro nodes
  induction nodes with
  | nil => intro j h; simp [mapSurfNodes] at h
  | cons s rest ih =>
    intro j h
    unfold mapSurfNodes at h
    split at h
    · simp at h
    · split at h
      · simp at h
      · split at h
        · rename_i f hf
          injection h with h
          subst h
          exact ih _ hf
        · simp at h

theorem stitchElement_ne_abort (nodemap : List (Nat × Nat)) (m : Mesh) (i : Nat) :
    (stitchElement nodemap m i).fault ≠ some .abort := by
  unfold stitchElement
  cases m.elementList[i]? with
  | none => simp
  | some e =>
    have hne := mapSurfNodes_ne_abort nodemap e.nodes 0
    simp only []
    cases hmap : mapSurfNodes nodemap e.nodes 0 with
    | error f =>
      simp only []
      intro h
      injection h with h
      subst h
      exact hne hmap
    | ok vs =>
      cases e.etype <;> simp only [] <;> (try split) <;> simp

theorem stitchLoop_ne_abort (nodemap : List (Nat × Nat)) :
    ∀ (ids : List Nat) (m : Mesh), (stitchLoop nodemap ids m).fault ≠ some .abort := by
  intro ids
  induction ids with
  | nil => intro m; simp [stitchLoop]
  | cons i rest ih =>
    intro m
    rw [stitchLoop]
    exact next_fault_ne_abort _ _ (stitchElement_ne_abort _ _ _) ih

theorem InflateBoundary_ne_abort (c : Collaborators) (boundaryFactag : Int) (d : Real)
    (m : Mesh) : (InflateBoundary c boundaryFactag d m).fault ≠ some .abort := by
  unfold InflateBoundary
  simp only []
  split
  · simp
  · split
    · simp
    · apply next_fault_ne_abort
      · simp
      · intro m2
        apply next_fault_ne_abort
        · exact stitchLoop_ne_abort _ _ _
        · intro m3; simp

theorem inflateLoop_ne_abort (c : Collaborators) (factag : Int) (distances : List Real)
    (nlayers : Nat) :
    ∀ (js : List Nat) (m : Mesh),
      (inflateLoop c factag distances nlayers js m).fault ≠ some .abort := by
  intro js
  induction js with
  | nil => intro m; simp [inflateLoop]
  | cons j js ih =>
    intro m
    rw [inflateLoop]
    split
    · simp
    · apply next_fault_ne_abort
      · simp
      · intro m1
        exact next_fault_ne_abort _ _ (InflateBoundary_ne_abort _ _ _ _) ih

theorem processFactag_ne_abort (c : Collaborators) (g : Real) (factag : Int) (t0 : Real)
    (n : Int) (m : Mesh) : (processFactag c g factag t0 n m).fault ≠ some .abort := by
  unfold processFactag
  simp only []
  apply next_fault_ne_abort
  · simp
  · intro m1
    split
    · simp
    · exact inflateLoop_ne_abort _ _ _ _ _ _

theorem factagLoop_ne_abort (c : Collaborators) (fl : List Int) (tl : List Real)
    (nl : List Int) (g : Real) :
    ∀ (is : List Nat) (m : Mesh), (factagLoop c fl tl nl g is m).fault ≠ some .abort := by
  intro is
  induction is with
  | nil => intro m; simp [factagLoop]
  | cons i is ih =>
    intro m
    rw [factagLoop]
    split
    · exact next_fault_ne_abort _ _ (processFactag_ne_abort _ _ _ _ _ _) ih
    · simp

/-- C7: the two-comparison test of line 30 holds exactly for the triples of lengths
that are not all equal; when the three sequences do not all have the same length,
`GenerateBoundaryLayers` aborts with the mesh it was given and an empty event list (no
sizing query, no `InflateBoundary` call); when they do, the run does not abort. -/
theorem generateBoundaryLayers_length_check (c : Collaborators) (boundaryFactagList : List Int)
    (firstCellThicknesses : List Real) (numberOfLayers : List Int) (m : Mesh)
    (growthRate : Real) :
    (∀ a b n : Nat, lengthMismatch a b n = true ↔ ¬ (a = b ∧ n = b)) ∧
    (¬ (boundaryFactagList.length = firstCellThicknesses.length ∧
        numberOfLayers.length = firstCellThicknesses.length) →
      GenerateBoundaryLayers c boundaryFactagList firstCellThicknesses numberOfLayers m
        growthRate = ⟨m, [], some .abort⟩) ∧
    (boundaryFactagList.length = firstCellThicknesses.length ∧
        numberOfLayers.length = firstCellThicknesses.length →
      (GenerateBoundaryLayers c boundaryFactagList firstCellThicknesses numberOfLayers m
        growthRate).fault ≠ some .abort) := by
  have hiff : ∀ a b n : Nat, lengthMismatch a b n = true ↔ ¬ (a = b ∧ n = b) := by
    intro a b n
    simp [lengthMismatch]
    tauto
  refine ⟨hiff, ?_, ?_⟩
  · intro h
    have hm := (hiff _ _ _).mpr h
    simp [GenerateBoundaryLayers, hm]
  · intro h
    have hm : lengthMismatch boundaryFactagList.length firstCellThicknesses.length
        numberOfLayers.length = false := by
      cases hb : lengthMismatch boundaryFactagList.length firstCellThicknesses.length
        numberOfLayers.length
      · rfl
      · exact absurd h ((hiff _ _ _).mp hb)
    simp only [GenerateBoundaryLayers, hm]
    exact factagLoop_ne_abort _ _ _ _ _ _ _

/-- C7 at two factags, one thickness and one layer count: nothing runs; and at one of
each on the triangle patch the run does not abort. -/
theorem generateBoundaryLayers_length_check_witness :
    ¬ (([1, 2] : List Int).length = ([1 / 100] : List Real).length ∧
        ([3] : List Int).length = ([1 / 100] : List Real).length) ∧
    GenerateBoundaryLayers (sampleCollaborators 1 1) [1, 2] [1 / 100] [3] trianglePatch (6 / 5) =
      ⟨trianglePatch, [], some .abort⟩ ∧
    (GenerateBoundaryLayers (sampleCollaborators 1 1) [1] [1 / 100] [3] trianglePatch
      (6 / 5)).fault ≠ some .abort :=
  ⟨by decide,
    (generateBoundaryLayers_length_check (sampleCollaborators 1 1) [1, 2] [1 / 100] [3]
      trianglePatch (6 / 5)).2.1 (by decide),
    (generateBoundaryLayers_length_check (sampleCollaborators 1 1) [1] [1 / 100] [3]
      trianglePatch (6 / 5)).2.2 (by decide)⟩

/-! ## The layer schedule (C2) -/

theorem thickness_shift (mul : Real → Real → Real) (t g : Real) :
    ∀ k : Nat, thickness mul (mul t g) g k = mul (thickness mul t g k) g := by
  intro k
  induction k with
  | zero => rfl
  | succ k ih => rw [thickness, ih]; rfl

theorem thickness_exact (mul : Real → Real → Real) (hmul : ∀ a b, mul a b = a * b)
    (t g : Real) : ∀ k : Nat, thickness mul t g k = t * g ^ k := by
  intro k
  induction k with
  | zero => simp [thickness]
  | succ k ih => rw [thickness, ih, hmul, pow_succ, mul_assoc]

theorem fillDistances_getElem? (mul : Real → Real → Real) (g : Real) :
    ∀ (n : Nat) (t : Real) (k : Nat), k < n →
      (fillDistances mul g n t)[k]? = some (thickness mul t g k) := by
  intro n
  induction n with
  | zero => intro t k hk; omega
  | succ n ih =>
    intro t k hk
    cases k with
    | zero => simp [fillDistances, thickness]
    | succ k =>
      rw [fillDistances, List.getElem?_cons_succ, ih (mul t g) k (by omega), thickness_shift]
      rfl

theorem next_mk_none (m : Mesh) (log : List Event) (k : Mesh → Run) :
    (Run.mk m log none).next k = ⟨(k m).mesh, log ++ (k m).log, (k m).fault⟩ := rfl

theorem next_of_none (r : Run) (k : Mesh → Run) (h : r.fault = none) :
    r.next k = ⟨(k r.mesh).mesh, r.log ++ (k r.mesh).log, (k r.mesh).fault⟩ := by
  unfold Run.next
  rw [h]

theorem next_of_some (r : Run) (k : Mesh → Run) (f : Fault) (h : r.fault = some f) :
    r.next k = r := by
  unfold Run.next
  rw [h]

theorem next_assoc (r : Run) (k1 k2 : Mesh → Run) :
    (r.next k1).next k2 = r.next (fun m => (k1 m).next k2) := by
  cases r with
  | mk mesh log fault =>
    cases fault with
    | some f => rfl
    | none =>
      show Run.next ⟨(k1 mesh).mesh, log ++ (k1 mesh).log, (k1 mesh).fault⟩ k2 = _
      cases hf1 : (k1 mesh).fault with
      | some f1 => simp [Run.next, hf1]
      | none => simp [Run.next, hf1, List.append_assoc]

theorem inflateCalls_append (a b : List Event) :
    inflateCalls (a ++ b) = inflateCalls a ++ inflateCalls b := by
  simp [inflateCalls]

theorem inflateCalls_next_nil (r : Run) (k : Mesh → Run) (h1 : inflateCalls r.log = [])
    (h2 : ∀ m, inflateCalls (k m).log = []) : inflateCalls (r.next k).log = [] := by
  cases hf : r.fault with
  | none => rw [next_of_none r k hf]; simp [inflateCalls_append, h1, h2]
  | some f => rw [next_of_some r k f hf]; exact h1

theorem stitchElement_calls (nodemap : List (Nat × Nat)) (m : Mesh) (i : Nat) :
    inflateCalls (stitchElement nodemap m i).log = [] := by
  unfold stitchElement
  cases m.elementList[i]? with
  | none => rfl
  | some e =>
    simp only []
    cases mapSurfNodes nodemap e.nodes 0 with
    | error f => rfl
    | ok vs => cases e.etype <;> simp only [] <;> (try split) <;> rfl

theorem stitchLoop_calls (nodemap : List (Nat × Nat)) :
    ∀ (ids : List Nat) (m : Mesh), inflateCalls (stitchLoop nodemap ids m).log = [] := by
  intro ids
  induction ids with
  | nil => intro m; rfl
  | cons i rest ih =>
    intro m
    rw [stitchLoop]
    exact inflateCalls_next_nil _ _ (stitchElement_calls _ _ _) ih

theorem InflateBoundary_calls (c : Collaborators) (boundaryFactag : Int) (d : Real)
    (m : Mesh) : inflateCalls (InflateBoundary c boundaryFactag d m).log = [] := by
  unfold InflateBoundary
  simp only []
  split
  · rfl
  · split
    · rfl
    · apply inflateCalls_next_nil
      · rfl
      · intro m2
        apply inflateCalls_next_nil
        · exact stitchLoop_calls _ _ _
        · intro m3; rfl

/-- The calls of the layer loop: either every call returns normally and the loop
returns normally after one call per listed `j`, or the call for the entry at some
position `k` is the first that does not return normally, and the loop stops inside it,
after the calls up to and including that one, with the fault and the mesh that call
left. Each call is made on the mesh the calls before it left. -/
theorem inflateLoop_calls (c : Collaborators) (factag : Int) (g t0 : Real) (n : Nat) :
    ∀ (js : List Nat) (m : Mesh), (∀ j ∈ js, 1 ≤ j ∧ j ≤ n) →
      ((inflateLoop c factag (fillDistances c.mul g n t0) n js m).fault = none ∧
        inflateCalls (inflateLoop c factag (fillDistances c.mul g n t0) n js m).log =
          js.map (fun j => (factag, thickness c.mul t0 g (n - j))) ∧
        (inflateLoop c factag (fillDistances c.mul g n t0) n js m).mesh =
          meshAfterCalls c (js.map (fun j => (factag, thickness c.mul t0 g (n - j)))) m ∧
        ∀ i ji, js[i]? = some ji →
          (InflateBoundary c factag (thickness c.mul t0 g (n - ji))
            (meshAfterCalls c
              ((js.map (fun j => (factag, thickness c.mul t0 g (n - j)))).take i) m)).fault =
            none) ∨
      (∃ k j, js[k]? = some j ∧
        inflateCalls (inflateLoop c factag (fillDistances c.mul g n t0) n js m).log =
          (js.map (fun j => (factag, thickness c.mul t0 g (n - j)))).take (k + 1) ∧
        (inflateLoop c factag (fillDistances c.mul g n t0) n js m).fault =
          (InflateBoundary c factag (thickness c.mul t0 g (n - j))
            (meshAfterCalls c
              ((js.map (fun j => (factag, thickness c.mul t0 g (n - j)))).take k) m)).fault ∧
        (inflateLoop c factag (fillDistances c.mul g n t0) n js m).mesh =
          (InflateBoundary c factag (thickness c.mul t0 g (n - j))
            (meshAfterCalls c
              ((js.map (fun j => (factag, thickness c.mul t0 g (n - j)))).take k) m)).mesh ∧
        (inflateLoop c factag (fillDistances c.mul g n t0) n js m).fault ≠ none ∧
        ∀ i ji, i < k → js[i]? = some ji →
          (InflateBoundary c factag (thickness c.mul t0 g (n - ji))
            (meshAfterCalls c
              ((js.map (fun j => (factag, thickness c.mul t0 g (n - j)))).take i) m)).fault =
            none) := by
  intro js
  induction js with
  | nil =>
    intro m _
    left
    refine ⟨rfl, rfl, rfl, ?_⟩
    intro i ji h
    simp at h
  | cons j js ih =>
    intro m hjs
    obtain ⟨hj1, hj2⟩ := hjs j (List.mem_cons_self _ _)
    have hd : (fillDistances c.mul g n t0)[n - j]? = some (thickness c.mul t0 g (n - j)) :=
      fillDistances_getElem? c.mul g n t0 (n - j) (by omega)
    rw [inflateLoop, hd]
    simp only [next_mk_none]
    cases hf : (InflateBoundary c factag (thickness c.mul t0 g (n - j)) m).fault with
    | none =>
      rw [next_of_none _ _ hf]
      simp only [inflateCalls_append, InflateBoundary_calls, List.nil_append, List.map_cons]
      rcases ih (InflateBoundary c factag (thickness c.mul t0 g (n - j)) m).mesh
        (fun i hi => hjs i (List.mem_cons_of_mem _ hi)) with
        ⟨h1, h2, h3, h4⟩ | ⟨k, j1, hk, h2, h3, h4, h5, h6⟩
      · left
        refine ⟨h1, ?_, h3, ?_⟩
        · rw [h2]
          rfl
        · intro i ji hi
          cases i with
          | zero =>
            simp at hi
            subst hi
            exact hf
          | succ i => exact h4 i ji (by simpa using hi)
      · right
        refine ⟨k + 1, j1, by simpa using hk, ?_, h3, h4, h5, ?_⟩
        · rw [h2]
          rfl
        · intro i ji hik hi
          cases i with
          | zero =>
            simp at hi
            subst hi
            exact hf
          | succ i => exact h6 i ji (by omega) (by simpa using hi)
    | some f =>
      rw [next_of_some _ _ f hf]
      right
      refine ⟨0, j, by simp, ?_, rfl, rfl, ?_, ?_⟩
      · show inflateCalls ([Event.inflateCall factag (thickness c.mul t0 g (n - j))] ++
            (InflateBoundary c factag (thickness c.mul t0 g (n - j)) m).log) = _
        rw [inflateCalls_append, InflateBoundary_calls]
        rfl
      · show (InflateBoundary c factag (thickness c.mul t0 g (n - j)) m).fault ≠ none
        rw [hf]
        simp
      · intro i ji hik
        omega

theorem layerSchedule_getElem? (mul : Real → Real → Real) (factag : Int) (t0 g : Real)
    (n k : Nat) (hk : k < n) :
    (layerSchedule mul factag t0 g n)[k]? = some (factag, thickness mul t0 g (n - 1 - k)) := by
  unfold layerSchedule
  rw [List.getElem?_map, List.getElem?_range hk]
  rfl

theorem range'_schedule (mul : Real → Real → Real) (factag : Int) (t0 g : Real) (n : Nat) :
    (List.range' 1 n).map (fun j => (factag, thickness mul t0 g (n - j))) =
      layerSchedule mul factag t0 g n := by
  rw [List.range'_eq_map_range, List.map_map, layerSchedule]
  apply List.map_congr_left
  intro j _
  simp [Nat.sub_sub]

theorem toSizeT_of_int (n : Int) (h0 : 0 ≤ n) (h : n < 2 ^ 31) :
    ¬ vectorMaxSize < toSizeT n := by
  have hmod : n % 2 ^ 64 = n := Int.emod_eq_of_lt h0 (by omega)
  unfold toSizeT
  rw [hmod]
  norm_num [vectorMaxSize]
  omega

theorem processFactag_of_nonneg (c : Collaborators) (g : Real) (factag : Int) (t0 : Real)
    (n : Int) (m : Mesh) (h0 : 0 ≤ n) (h : n < 2 ^ 31) :
    processFactag c g factag t0 n m =
      ⟨(inflateLoop c factag (fillDistances c.mul g n.toNat t0) n.toNat
          (List.range' 1 n.toNat) m).mesh,
        .sizingQuery factag :: (inflateLoop c factag (fillDistances c.mul g n.toNat t0)
          n.toNat (List.range' 1 n.toNat) m).log,
        (inflateLoop c factag (fillDistances c.mul g n.toNat t0) n.toNat
          (List.range' 1 n.toNat) m).fault⟩ := by
  have hl : ∀ x, layersUsed c.mul n t0 g x = n := by
    intro x
    unfold layersUsed
    rw [if_neg (by omega)]
  unfold processFactag
  simp only [hl, next_mk_none, if_neg (toSizeT_of_int n h0 h)]
  rfl

/-- The calls of the loop body for one tuple with a non-negative count. -/
theorem processFactag_calls (c : Collaborators) (g : Real) (factag : Int) (t0 : Real)
    (n : Int) (m : Mesh) (h0 : 0 ≤ n) (h : n < 2 ^ 31) :
    ((processFactag c g factag t0 n m).fault = none ∧
      inflateCalls (processFactag c g factag t0 n m).log =
        layerSchedule c.mul factag t0 g n.toNat ∧
      (processFactag c g factag t0 n m).mesh =
        meshAfterCalls c (layerSchedule c.mul factag t0 g n.toNat) m ∧
      ∀ i, i < n.toNat →
        (InflateBoundary c factag (thickness c.mul t0 g (n.toNat - 1 - i))
          (meshAfterCalls c ((layerSchedule c.mul factag t0 g n.toNat).take i) m)).fault =
          none) ∨
    (∃ k, k < n.toNat ∧
      inflateCalls (processFactag c g factag t0 n m).log =
        (layerSchedule c.mul factag t0 g n.toNat).take (k + 1) ∧
      (processFactag c g factag t0 n m).fault =
        (InflateBoundary c factag (thickness c.mul t0 g (n.toNat - 1 - k))
          (meshAfterCalls c ((layerSchedule c.mul factag t0 g n.toNat).take k) m)).fault ∧
      (processFactag c g factag t0 n m).mesh =
        (InflateBoundary c factag (thickness c.mul t0 g (n.toNat - 1 - k))
          (meshAfterCalls c ((layerSchedule c.mul factag t0 g n.toNat).take k) m)).mesh ∧
      (processFactag c g factag t0 n m).fault ≠ none ∧
      ∀ i, i < k →
        (InflateBoundary c factag (thickness c.mul t0 g (n.toNat - 1 - i))
          (meshAfterCalls c ((layerSchedule c.mul factag t0 g n.toNat).take i) m)).fault =
          none) := by
  have hL := inflateLoop_calls c factag g t0 n.toNat (List.range' 1 n.toNat) m (by
    intro j hj
    rw [List.mem_range'_1] at hj
    omega)
  rw [range'_schedule] at hL
  rw [processFactag_of_nonneg c g factag t0 n m h0 h]
  have hc : ∀ l, inflateCalls (.sizingQuery factag :: l) = inflateCalls l := by
    intro l; rfl
  simp only [hc]
  have hidx : ∀ i, i < n.toNat → (List.range' 1 n.toNat)[i]? = some (1 + i) := by
    intro i hi
    rw [List.getElem?_range' 1 1 hi]
    simp
  have hsub : ∀ i, n.toNat - (1 + i) = n.toNat - 1 - i := by
    intro i; omega
  rcases hL with ⟨h1, h2, h3, h4⟩ | ⟨k, j, hk, h2, h3, h4, h5, h6⟩
  · left
    refine ⟨h1, h2, h3, ?_⟩
    intro i hi
    have := h4 i (1 + i) (hidx i hi)
    rwa [hsub] at this
  · right
    have hkn : k < n.toNat := by
      have := (List.getElem?_eq_some.mp hk).1
      simpa using this
    rw [hidx k hkn] at hk
    have hj : j = 1 + k := by
      injection hk with hk
      omega
    subst hj
    rw [hsub] at h3 h4
    refine ⟨k, hkn, h2, h3, h4, h5, ?_⟩
    intro i hik
    have := h6 i (1 + i) hik (hidx i (by omega))
    rwa [hsub] at this

theorem factagLoop_append (c : Collaborators) (fl : List Int) (tl : List Real)
    (nl : List Int) (g : Real) :
    ∀ (is1 is2 : List Nat) (m : Mesh),
      factagLoop c fl tl nl g (is1 ++ is2) m =
        (factagLoop c fl tl nl g is1 m).next (factagLoop c fl tl nl g is2) := by
  intro is1
  induction is1 with
  | nil => intro is2 m; simp [factagLoop, next_mk_none]
  | cons i is1 ih =>
    intro is2 m
    rw [List.cons_append, factagLoop, factagLoop]
    split
    · rw [next_assoc]
      congr 1
      funext mi
      exact ih is2 mi
    · rfl

/-- C2 (amended): for the tuple at index i of a run with equal-length sequences, with
factag F, first thickness t0 and a non-negative `int` count N: the thickness table
holds `thickness[0] = t0` and `thickness[k] = thickness[k-1] * g` with the product of
`Real` (which is `t0 * g ^ k` when products are exact); the run is the loop over the
tuples before i, then the loop body for this tuple, then the loop over the tuples
after i; and the loop body, on whatever mesh it starts from, calls `InflateBoundary`
on F with the distances thickness[N-1], ..., thickness[0] in that order, each call on
the mesh the previous one left: either all N calls return normally and the body
returns normally after exactly these N calls (none when N = 0), or the body stops
inside the first call that does not return normally, after the calls up to and
including that one, with that call's fault and mesh. -/
theorem generateBoundaryLayers_schedule (c : Collaborators) (boundaryFactagList : List Int)
    (firstCellThicknesses : List Real) (numberOfLayers : List Int) (m : Mesh)
    (growthRate : Real)
    (hft : boundaryFactagList.length = firstCellThicknesses.length)
    (hnt : numberOfLayers.length = firstCellThicknesses.length)
    (i : Nat) (F : Int) (t0 : Real) (N : Int)
    (hF : boundaryFactagList[i]? = some F) (ht : firstCellThicknesses[i]? = some t0)
    (hn : numberOfLayers[i]? = some N) (hN0 : 0 ≤ N) (hN31 : N < 2 ^ 31) :
    (∀ k : Nat, k < N.toNat →
      (fillDistances c.mul growthRate N.toNat t0)[k]? =
        some (thickness c.mul t0 growthRate k)) ∧
    ((∀ a b, c.mul a b = a * b) →
      ∀ k : Nat, thickness c.mul t0 growthRate k = t0 * growthRate ^ k) ∧
    GenerateBoundaryLayers c boundaryFactagList firstCellThicknesses numberOfLayers m
        growthRate =
      (factagLoop c boundaryFactagList firstCellThicknesses numberOfLayers growthRate
        (List.range i) m).next (fun mi =>
          (processFactag c growthRate F t0 N mi).next
            (factagLoop c boundaryFactagList firstCellThicknesses numberOfLayers growthRate
              (List.range' (i + 1) (boundaryFactagList.length - (i + 1))))) ∧
    ∀ mi : Mesh,
      ((processFactag c growthRate F t0 N mi).fault = none ∧
        inflateCalls (processFactag c growthRate F t0 N mi).log =
          layerSchedule c.mul F t0 growthRate N.toNat ∧
        (processFactag c growthRate F t0 N mi).mesh =
          meshAfterCalls c (layerSchedule c.mul F t0 growthRate N.toNat) mi ∧
        ∀ j, j < N.toNat →
          (InflateBoundary c F (thickness c.mul t0 growthRate (N.toNat - 1 - j))
            (meshAfterCalls c
              ((layerSchedule c.mul F t0 growthRate N.toNat).take j) mi)).fault = none) ∨
      (∃ k, k < N.toNat ∧
        inflateCalls (processFactag c growthRate F t0 N mi).log =
          (layerSchedule c.mul F t0 growthRate N.toNat).take (k + 1) ∧
        (processFactag c growthRate F t0 N mi).fault =
          (InflateBoundary c F (thickness c.mul t0 growthRate (N.toNat - 1 - k))
            (meshAfterCalls c
              ((layerSchedule c.mul F t0 growthRate N.toNat).take k) mi)).fault ∧
        (processFactag c growthRate F t0 N mi).mesh =
          (InflateBoundary c F (thickness c.mul t0 growthRate (N.toNat - 1 - k))
            (meshAfterCalls c
              ((layerSchedule c.mul F t0 growthRate N.toNat).take k) mi)).mesh ∧
        (processFactag c growthRate F t0 N mi).fault ≠ none ∧
        ∀ j, j < k →
          (InflateBoundary c F (thickness c.mul t0 growthRate (N.toNat - 1 - j))
            (meshAfterCalls c
              ((layerSchedule c.mul F t0 growthRate N.toNat).take j) mi)).fault = none) := by
  have hi : i < boundaryFactagList.length := (List.getElem?_eq_some.mp hF).1
  have hm : lengthMismatch boundaryFactagList.length firstCellThicknesses.length
      numberOfLayers.length = false := by
    simp [lengthMismatch, hft, hnt]
  refine ⟨fun k hk => fillDistances_getElem? c.mul growthRate N.toNat t0 k hk,
    fun hmul k => thickness_exact c.mul hmul t0 growthRate k, ?_,
    fun mi => processFactag_calls c growthRate F t0 N mi hN0 hN31⟩
  have hsplit : List.range boundaryFactagList.length =
      List.range i ++ (i :: List.range' (i + 1) (boundaryFactagList.length - (i + 1))) := by
    rw [List.range_eq_range', List.range_eq_range', ← List.range'_succ]
    have := List.range'_append_1 0 i (boundaryFactagList.length - (i + 1) + 1)
    rw [Nat.zero_add] at this
    rw [this]
    congr 1
    omega
  simp only [GenerateBoundaryLayers, hm]
  rw [if_neg (by simp), hsplit, factagLoop_append]
  congr 1
  funext mi
  rw [factagLoop, hF, ht, hn]

/-- C2 at the spec's scenario (first thickness 0.01, growth rate 1.2, three layers on
the triangle patch, exact products): the loop body returns normally after three calls
with distances 0.0144, 0.012, 0.01, in that order. -/
theorem generateBoundaryLayers_schedule_witness :
    (processFactag (sampleCollaborators 1 1) (6 / 5) 1 (1 / 100) 3 trianglePatch).fault =
      none ∧
    inflateCalls (processFactag (sampleCollaborators 1 1) (6 / 5) 1 (1 / 100) 3
      trianglePatch).log = [(1, 9 / 625), (1, 3 / 250), (1, 1 / 100)] ∧
    inflateCalls (GenerateBoundaryLayers (sampleCollaborators 1 1) [1] [1 / 100] [3]
      trianglePatch (6 / 5)).log = [(1, 9 / 625), (1, 3 / 250), (1, 1 / 100)] := by
  have hf : (processFactag (sampleCollaborators 1 1) (6 / 5) 1 (1 / 100) 3
      trianglePatch).fault = none := by decide!
  obtain ⟨_, _, hrun, hcalls⟩ := generateBoundaryLayers_schedule (sampleCollaborators 1 1)
    [1] [1 / 100] [3] trianglePatch (6 / 5) rfl rfl 0 1 (1 / 100) 3 rfl rfl rfl
    (by decide) (by decide)
  have hc : inflateCalls (processFactag (sampleCollaborators 1 1) (6 / 5) 1 (1 / 100) 3
      trianglePatch).log = [(1, 9 / 625), (1, 3 / 250), (1, 1 / 100)] := by
    rcases hcalls trianglePatch with ⟨_, h2, _, _⟩ | ⟨k, _, _, _, _, h5, _⟩
    · rw [h2]
      decide!
    · exact absurd hf h5
  refine ⟨hf, hc, ?_⟩
  rw [hrun]
  decide!

/-- C2 refuted as stated, with the product of `double` and `t0 = g = 1 + 2^-52`.
On the mixed patch with N = 3 one call is made, not three: it stops on the
unsupported element. On factag 7 of the triangle patch (no points, every call
returns) with N = 2, the first call receives thickness[1] = 1 + 2^-51, the rounded
product, which is not `t0 * g ^ 1 = 1 + 2^-51 + 2^-104`. -/
theorem generateBoundaryLayers_schedule_counterexample :
    inflateCalls (GenerateBoundaryLayers (doubleCollaborators 1 1) [1] [1 + 1 / 2 ^ 52] [3]
      mixedPatch (1 + 1 / 2 ^ 52)).log = [(1, 1 + 3 / 2 ^ 52)] ∧
    inflateCalls (GenerateBoundaryLayers (doubleCollaborators 1 1) [7] [1 + 1 / 2 ^ 52] [2]
      trianglePatch (1 + 1 / 2 ^ 52)).log =
        [(7, 1 + 1 / 2 ^ 51), (7, 1 + 1 / 2 ^ 52)] ∧
    (1 + 1 / 2 ^ 52 : Real) * (1 + 1 / 2 ^ 52) ^ 1 ≠ 1 + 1 / 2 ^ 51 := by
  decide!

/-! ## The number of layers (C8) -/

theorem idealLayerLoop_none (mul : Real → Real → Real) (g target t0 : Real) :
    ∀ (fuel j : Nat),
      (∀ i, j ≤ i → i < j + fuel → ¬ thickness mul t0 g (i + 1) > target) →
      idealLayerLoop mul g target fuel j (thickness mul t0 g j) = 0 := by
  intro fuel
  induction fuel with
  | zero => intro j _; rfl
  | succ fuel ih =>
    intro j h
    have hj : ¬ mul (thickness mul t0 g j) g > target := h j (Nat.le_refl _) (by omega)
    rw [idealLayerLoop, if_neg hj]
    exact ih (j + 1) (fun i hi1 hi2 => h i (by omega) (by omega))

theorem idealLayerLoop_first (mul : Real → Real → Real) (g target t0 : Real) :
    ∀ (fuel j i : Nat), j ≤ i → i < j + fuel → thickness mul t0 g (i + 1) > target →
      (∀ k, j ≤ k → k < i → ¬ thickness mul t0 g (k + 1) > target) →
      idealLayerLoop mul g target fuel j (thickness mul t0 g j) = (i : Int) - 1 := by
  intro fuel
  induction fuel with
  | zero => intro j i h1 h2; omega
  | succ fuel ih =>
    intro j i h1 h2 hi hlt
    rw [idealLayerLoop]
    by_cases hji : j = i
    · subst hji
      have hi1 : mul (thickness mul t0 g j) g > target := hi
      rw [if_pos hi1]
    · have hj : ¬ mul (thickness mul t0 g j) g > target :=
        hlt j (Nat.le_refl _) (by omega)
      rw [if_neg hj]
      exact ih (j + 1) i (by omega) (by omega) hi (fun k hk1 hk2 => hlt k (by omega) hk2)

/-- C8 (amended): the layer count used for a tuple is the requested count n when
n >= 0, whatever the sizing; when n < 0 it is j - 1 for the least index j below 100
with `thickness[j+1] > sqrt a`, and 0 when no index below 100 satisfies that, where
thickness[j+1] is t0 multiplied j+1 times by g with the product of `Real`; it is
`t0 * g ^ (j+1)` when products are exact. -/
theorem layersUsed_spec (c : Collaborators) (n : Int) (t0 g a : Real) :
    (0 ≤ n → layersUsed c.mul n t0 g (c.sqrt a) = n) ∧
    (n < 0 →
      (∀ j : Nat, j < 100 → thickness c.mul t0 g (j + 1) > c.sqrt a →
        (∀ i : Nat, i < j → ¬ thickness c.mul t0 g (i + 1) > c.sqrt a) →
        layersUsed c.mul n t0 g (c.sqrt a) = (j : Int) - 1) ∧
      ((∀ j : Nat, j < 100 → ¬ thickness c.mul t0 g (j + 1) > c.sqrt a) →
        layersUsed c.mul n t0 g (c.sqrt a) = 0)) ∧
    ((∀ x y, c.mul x y = x * y) → ∀ k : Nat, thickness c.mul t0 g k = t0 * g ^ k) := by
  refine ⟨?_, ?_, fun hmul k => thickness_exact c.mul hmul t0 g k⟩
  · intro h
    unfold layersUsed
    rw [if_neg (by omega)]
  · intro h
    constructor
    · intro j hj hP hleast
      unfold layersUsed idealLayers
      rw [if_pos h]
      exact idealLayerLoop_first c.mul g (c.sqrt a) t0 100 0 j (Nat.zero_le _) (by omega) hP
        (fun k _ hk => hleast k hk)
    · intro hnone
      unfold layersUsed idealLayers
      rw [if_pos h]
      exact idealLayerLoop_none c.mul g (c.sqrt a) t0 100 0 (fun i _ hi => hnone i (by omega))

/-- C8 with first thickness 0.01, growth rate 1.2, edge length 1 and exact products:
index 25 is the first to exceed, so the negative request becomes 24 layers; the
request 3 is kept. -/
theorem layersUsed_spec_witness :
    layersUsed (sampleCollaborators 1 1).mul (-1) (1 / 100) (6 / 5)
      ((sampleCollaborators 1 1).sqrt 1) = 24 ∧
    layersUsed (sampleCollaborators 1 1).mul 3 (1 / 100) (6 / 5)
      ((sampleCollaborators 1 1).sqrt 1) = 3 :=
  ⟨((layersUsed_spec (sampleCollaborators 1 1) (-1) (1 / 100) (6 / 5) 1).2.1 (by decide)).1 25
      (by decide) (by decide!) (by decide!),
    (layersUsed_spec (sampleCollaborators 1 1) 3 (1 / 100) (6 / 5) 1).1 (by decide)⟩

/-- C8 refuted as stated, with the product of `double`, `t0 = g = 1 + 2^-52`, average
sizing `1 + 2^-50` (whose `double` square root is `1 + 2^-51`) and the requested
count -1. The exact product `t0 * g ^ 1 = 1 + 2^-51 + 2^-104` exceeds the square root,
so the least index of the claim is 0 and its count is -1; the code's product is
rounded to `1 + 2^-51`, which does not exceed, the next one `1 + 3 * 2^-52` does, and
the count used is 1 - 1 = 0: the run makes no call and returns normally. -/
theorem layersUsed_counterexample :
    (1 + 1 / 2 ^ 52 : Real) * (1 + 1 / 2 ^ 52) ^ (0 + 1) > 1 + 1 / 2 ^ 51 ∧
    thickness mulDouble (1 + 1 / 2 ^ 52) (1 + 1 / 2 ^ 52) 1 = 1 + 1 / 2 ^ 51 ∧
    thickness mulDouble (1 + 1 / 2 ^ 52) (1 + 1 / 2 ^ 52) 2 = 1 + 3 / 2 ^ 52 ∧
    layersUsed (doubleCollaborators (1 + 1 / 2 ^ 50) (1 + 1 / 2 ^ 51)).mul (-1)
      (1 + 1 / 2 ^ 52) (1 + 1 / 2 ^ 52)
      ((doubleCollaborators (1 + 1 / 2 ^ 50) (1 + 1 / 2 ^ 51)).sqrt (1 + 1 / 2 ^ 50)) = 0 ∧
    GenerateBoundaryLayers (doubleCollaborators (1 + 1 / 2 ^ 50) (1 + 1 / 2 ^ 51)) [1]
      [1 + 1 / 2 ^ 52] [-1] trianglePatch (1 + 1 / 2 ^ 52) =
        ⟨trianglePatch, [.sizingQuery 1], none⟩ := by
  decide!

/-! ## Several layers on one factag (C5) -/

theorem mem_taggedElements (m : Mesh) (factag : Int) (i : Nat) :
    i ∈ taggedElements m factag ↔ ∃ e, m.elementList[i]? = some e ∧ e.factag = factag := by
  unfold taggedElements
  rw [List.mem_filter, List.mem_range]
  constructor
  · rintro ⟨hi, h⟩
    refine ⟨m.elementList[i], List.getElem?_eq_getElem hi, ?_⟩
    simpa [List.getElem?_eq_getElem hi] using h
  · rintro ⟨e, he, hf⟩
    have hi : i < m.elementList.length := (List.getElem?_eq_some.mp he).1
    refine ⟨hi, ?_⟩
    simp [he, hf]

theorem taggedElements_nodup (m : Mesh) (factag : Int) : (taggedElements m factag).Nodup :=
  List.Nodup.filter _ (List.nodup_range _)

theorem inflatablePatch_of_valid (c : Collaborators) (factag : Int) (m : Mesh)
    (hq : FactagQueries c factag) (hv : PatchValid m factag)
    (hne : c.FindPointsWithFactag m factag ≠ []) : InflatablePatch c factag m where
  nonempty := hne
  distinct := hq.pointsDistinct m
  inMesh := by
    intro p hp
    obtain ⟨e, he, hf, hpe⟩ := (hq.points m p).mp hp
    exact (hv e he hf).2 p hpe
  idsDistinct := by rw [hq.surface]; exact taggedElements_nodup m factag
  elements := by
    intro i hi
    rw [hq.surface] at hi
    obtain ⟨e, he, hf⟩ := (mem_taggedElements m factag i).mp hi
    have hmem : e ∈ m.elementList := List.mem_iff_getElem?.mpr ⟨i, he⟩
    exact ⟨e, he, (hv e hmem hf).1, fun s hs => (hq.points m s).mpr ⟨e, hmem, hf, hs⟩⟩
  smoother := hq.smoother m

/-- The elements carrying the factag after one layer are the re-pointed elements that
carried it before. -/
theorem tagged_after_stitch (f : Nat → Nat) (factag : Int) (hF : factag ≠ -1)
    (m : Mesh) (after : List Element)
    (hE : ElementsStitched f (taggedElements m factag) m.elementList after)
    (e1 : Element) :
    (e1 ∈ after ∧ e1.factag = factag) ↔
      ∃ e ∈ m.elementList, e.factag = factag ∧ e1 = remapElement f e := by
  constructor
  · rintro ⟨hmem, hf⟩
    obtain ⟨k, hk⟩ := List.mem_iff_getElem?.mp hmem
    have hklt : k < after.length := (List.getElem?_eq_some.mp hk).1
    rw [hE.length] at hklt
    by_cases hkl : k < m.elementList.length
    · have hs := hE.surface k hkl
      rw [hk] at hs
      by_cases hki : k ∈ taggedElements m factag
      · rw [if_pos hki] at hs
        obtain ⟨e, he, hfe⟩ := (mem_taggedElements m factag k).mp hki
        rw [he] at hs
        simp at hs
        exact ⟨e, List.mem_iff_getElem?.mpr ⟨k, he⟩, hfe, hs⟩
      · rw [if_neg hki] at hs
        exact absurd ((mem_taggedElements m factag k).mpr ⟨e1, hs.symm, hf⟩) hki
    · obtain ⟨k1, rfl⟩ : ∃ k1, k = m.elementList.length + k1 :=
        ⟨k - m.elementList.length, by omega⟩
      have hk1 : k1 < (taggedElements m factag).length := by omega
      have hv := hE.volume k1 _ (List.getElem?_eq_getElem hk1)
      rw [hk] at hv
      obtain ⟨e, he, _⟩ := (mem_taggedElements m factag _).mp (List.getElem_mem hk1)
      rw [he] at hv
      simp at hv
      rw [hv] at hf
      exact absurd hf.symm hF
  · rintro ⟨e, hmem, hf, rfl⟩
    obtain ⟨k, hk⟩ := List.mem_iff_getElem?.mp hmem
    have hkl : k < m.elementList.length := (List.getElem?_eq_some.mp hk).1
    have hki : k ∈ taggedElements m factag := (mem_taggedElements m factag k).mpr ⟨e, hk, hf⟩
    have hs := hE.surface k hkl
    rw [if_pos hki, hk] at hs
    exact ⟨List.mem_iff_getElem?.mpr ⟨k, hs⟩, hf⟩

theorem taggedElements_after_stitch (f : Nat → Nat) (factag : Int) (hF : factag ≠ -1)
    (m m1 : Mesh)
    (hE : ElementsStitched f (taggedElements m factag) m.elementList m1.elementList) :
    taggedElements m1 factag = taggedElements m factag := by
  have h1 : ∀ k ∈ List.range m.elementList.length,
      decide ((m1.elementList[k]?).map Element.factag = some factag) =
        decide ((m.elementList[k]?).map Element.factag = some factag) := by
    intro k hk
    have hs := hE.surface k (List.mem_range.mp hk)
    have hfac : (m1.elementList[k]?).map Element.factag =
        (m.elementList[k]?).map Element.factag := by
      rw [hs]
      split
      · cases m.elementList[k]? <;> rfl
      · rfl
    rw [hfac]
  have h2 : ∀ j ∈ List.range (taggedElements m factag).length,
      ¬ decide ((m1.elementList[m.elementList.length + j]?).map Element.factag =
        some factag) = true := by
    intro j hj
    have hj1 : j < (taggedElements m factag).length := List.mem_range.mp hj
    have hv := hE.volume j _ (List.getElem?_eq_getElem hj1)
    obtain ⟨e, he, _⟩ := (mem_taggedElements m factag _).mp (List.getElem_mem hj1)
    rw [hv, he]
    simp [stitchedElement]
    exact fun h => hF h.symm
  unfold taggedElements
  rw [hE.length, List.range_add, List.filter_append, List.filter_congr h1]
  have hnil : List.filter
      (fun i => decide ((m1.elementList[i]?).map Element.factag = some factag))
      (List.map (fun x => m.elementList.length + x)
        (List.range (taggedElements m factag).length)) = [] := by
    rw [List.filter_eq_nil_iff]
    intro a ha
    obtain ⟨j, hj, rfl⟩ := List.mem_map.mp ha
    exact h2 j hj
  rw [hnil, List.append_nil]

theorem nodeMapFn_injOn (n : Nat) (pts : List Nat) :
    ∀ x ∈ pts, ∀ y ∈ pts, nodeMapFn n pts x = nodeMapFn n pts y → x = y := by
  intro x hx y hy h
  unfold nodeMapFn at h
  exact (List.indexOf_inj hx hy).mp (by omega)

/-- One layer on a valid patch leaves a valid patch with as many points and as many
surface elements on the factag, P more nodes and S more elements. -/
theorem inflateBoundary_preserves (c : Collaborators) (factag : Int) (d : Real) (m : Mesh)
    (hq : FactagQueries c factag) (hF : factag ≠ -1) (hv : PatchValid m factag)
    (hne : c.FindPointsWithFactag m factag ≠ []) :
    (InflateBoundary c factag d m).fault = none ∧
    PatchValid (InflateBoundary c factag d m).mesh factag ∧
    (c.FindPointsWithFactag (InflateBoundary c factag d m).mesh factag).length =
      (c.FindPointsWithFactag m factag).length ∧
    taggedElements (InflateBoundary c factag d m).mesh factag = taggedElements m factag ∧
    (InflateBoundary c factag d m).mesh.GetNumNodes =
      m.GetNumNodes + (c.FindPointsWithFactag m factag).length ∧
    (InflateBoundary c factag d m).mesh.elementList.length =
      m.elementList.length + (taggedElements m factag).length := by
  have hR := InflateBoundary_spec c factag d m (inflatablePatch_of_valid c factag m hq hv hne)
  have hE := hR.elements
  rw [hq.surface] at hE
  have htag := tagged_after_stitch _ factag hF m _ hE
  have hmemf : ∀ q, q ∈ c.FindPointsWithFactag (InflateBoundary c factag d m).mesh factag ↔
      q ∈ (c.FindPointsWithFactag m factag).map
        (nodeMapFn m.GetNumNodes (c.FindPointsWithFactag m factag)) := by
    intro q
    rw [hq.points, List.mem_map]
    constructor
    · rintro ⟨e1, he1, hf1, hq1⟩
      obtain ⟨e, he, hf, rfl⟩ := (htag e1).mp ⟨he1, hf1⟩
      obtain ⟨s, hs, rfl⟩ := List.mem_map.mp hq1
      exact ⟨s, (hq.points m s).mpr ⟨e, he, hf, hs⟩, rfl⟩
    · rintro ⟨s, hs, rfl⟩
      obtain ⟨e, he, hf, hse⟩ := (hq.points m s).mp hs
      obtain ⟨h1, h2⟩ := (htag (remapElement _ e)).mpr ⟨e, he, hf, rfl⟩
      exact ⟨_, h1, h2, List.mem_map.mpr ⟨s, hse, rfl⟩⟩
  refine ⟨hR.fault, ?_, ?_, taggedElements_after_stitch _ factag hF m _ hE, hR.nnode, hE.length⟩
  · intro e1 he1 hf1
    obtain ⟨e, he, hf, rfl⟩ := (htag e1).mp ⟨he1, hf1⟩
    obtain ⟨⟨hty, hwf⟩, _⟩ := hv e he hf
    refine ⟨⟨hty, ?_⟩, ?_⟩
    · unfold Element.WF remapElement
      simpa using hwf
    · intro t ht
      obtain ⟨s, hs, rfl⟩ := List.mem_map.mp ht
      have hsp : s ∈ c.FindPointsWithFactag m factag := (hq.points m s).mpr ⟨e, he, hf, hs⟩
      have hidx := List.indexOf_lt_length.mpr hsp
      rw [hR.nnode]
      unfold nodeMapFn
      omega
  · have hperm := (List.perm_ext_iff_of_nodup (hq.pointsDistinct _)
      (List.Nodup.map_on (nodeMapFn_injOn m.GetNumNodes _) (hq.pointsDistinct m))).mpr hmemf
    rw [hperm.length_eq, List.length_map]

theorem inflateLoop_counts (c : Collaborators) (factag : Int) (g t0 : Real) (n : Nat)
    (hq : FactagQueries c factag) (hF : factag ≠ -1) (P S : Nat) (hP1 : 1 ≤ P) :
    ∀ (js : List Nat) (m : Mesh), (∀ j ∈ js, 1 ≤ j ∧ j ≤ n) → PatchValid m factag →
      (c.FindPointsWithFactag m factag).length = P → (taggedElements m factag).length = S →
      (inflateLoop c factag (fillDistances c.mul g n t0) n js m).fault = none ∧
      (inflateLoop c factag (fillDistances c.mul g n t0) n js m).mesh.GetNumNodes =
        m.GetNumNodes + js.length * P ∧
      (inflateLoop c factag (fillDistances c.mul g n t0) n js m).mesh.elementList.length =
        m.elementList.length + js.length * S := by
  intro js
  induction js with
  | nil => intro m _ _ _ _; simp [inflateLoop]
  | cons j js ih =>
    intro m hjs hv hP hS
    obtain ⟨hj1, hj2⟩ := hjs j (List.mem_cons_self _ _)
    have hd : (fillDistances c.mul g n t0)[n - j]? = some (thickness c.mul t0 g (n - j)) :=
      fillDistances_getElem? c.mul g n t0 (n - j) (by omega)
    have hne : c.FindPointsWithFactag m factag ≠ [] := by
      intro h0
      rw [h0] at hP
      simp at hP
      omega
    obtain ⟨hf, hv1, hP1', hS1, hn1, hl1⟩ :=
      inflateBoundary_preserves c factag (thickness c.mul t0 g (n - j)) m hq hF hv hne
    obtain ⟨h1, h2, h3⟩ := ih (InflateBoundary c factag (thickness c.mul t0 g (n - j)) m).mesh
      (fun i hi => hjs i (List.mem_cons_of_mem _ hi)) hv1 (by rw [hP1', hP])
      (by rw [hS1, hS])
    rw [inflateLoop, hd]
    simp only [next_mk_none, next_of_none _ _ hf]
    refine ⟨h1, ?_, ?_⟩
    · rw [h2, hn1, hP, List.length_cons, Nat.succ_mul]
      omega
    · rw [h3, hl1, hS, List.length_cons, Nat.succ_mul]
      omega

/-- C5: for one tuple (F, t0, N) with N a non-negative `int` and F a boundary factag
(not the interior sentinel -1), on a mesh whose elements on F are triangles or
quadrilaterals on mesh nodes, with P >= 1 points and S surface elements on F, where
on every mesh state the surface elements of F are the elements carrying F and the
points of F are exactly their nodes, `GenerateBoundaryLayers` returns normally with
N * P more nodes and N * S more elements. -/
theorem generateBoundaryLayers_counts (c : Collaborators) (factag : Int) (t0 g : Real)
    (N : Int) (m : Mesh) (P S : Nat) (hq : FactagQueries c factag) (hF : factag ≠ -1)
    (hN0 : 0 ≤ N) (hN31 : N < 2 ^ 31) (hv : PatchValid m factag)
    (hP : (c.FindPointsWithFactag m factag).length = P) (hP1 : 1 ≤ P)
    (hS : (c.FindSurfaceElementsWithFactag m factag).length = S) :
    (GenerateBoundaryLayers c [factag] [t0] [N] m g).fault = none ∧
    (GenerateBoundaryLayers c [factag] [t0] [N] m g).mesh.GetNumNodes =
      m.GetNumNodes + N.toNat * P ∧
    (GenerateBoundaryLayers c [factag] [t0] [N] m g).mesh.elementList.length =
      m.elementList.length + N.toNat * S := by
  rw [hq.surface] at hS
  obtain ⟨h1, h2, h3⟩ := inflateLoop_counts c factag g t0 N.toNat hq hF P S hP1
    (List.range' 1 N.toNat) m (by
      intro j hj
      rw [List.mem_range'_1] at hj
      omega) hv hP hS
  rw [List.length_range'] at h2 h3
  have hG : GenerateBoundaryLayers c [factag] [t0] [N] m g =
      (processFactag c g factag t0 N m).next (factagLoop c [factag] [t0] [N] g []) := by
    simp [GenerateBoundaryLayers, lengthMismatch, factagLoop, List.range_succ]
  have hpf : (processFactag c g factag t0 N m).fault = none := by
    rw [processFactag_of_nonneg c g factag t0 N m hN0 hN31]
    exact h1
  rw [hG, next_of_none _ _ hpf, processFactag_of_nonneg c g factag t0 N m hN0 hN31]
  exact ⟨rfl, h2, h3⟩

theorem sampleCollaborators_queries (a r : Real) (factag : Int) :
    FactagQueries (sampleCollaborators a r) factag where
  surface := fun _ => rfl
  pointsDistinct := fun m => List.nodup_dedup _
  points := by
    intro m p
    show p ∈ taggedPoints m factag ↔ _
    unfold taggedPoints
    rw [List.mem_dedup, List.mem_flatMap]
    constructor
    · rintro ⟨e, he, hp⟩
      obtain ⟨h1, h2⟩ := List.mem_filter.mp he
      exact ⟨e, h1, by simpa using h2, hp⟩
    · rintro ⟨e, he, hf, hp⟩
      exact ⟨e, List.mem_filter.mpr ⟨he, by simpa using hf⟩, hp⟩
  smoother := sampleCollaborators_smoother a r

/-- C5 at the spec's scenario: two triangles on three points, first thickness 0.01,
growth rate 1.2, three layers: nine more nodes and six more elements. -/
theorem generateBoundaryLayers_counts_witness :
    PatchValid trianglePatch 1 ∧
    (GenerateBoundaryLayers (sampleCollaborators 1 1) [1] [1 / 100] [3] trianglePatch
      (6 / 5)).mesh.GetNumNodes = trianglePatch.GetNumNodes + 9 ∧
    (GenerateBoundaryLayers (sampleCollaborators 1 1) [1] [1 / 100] [3] trianglePatch
      (6 / 5)).mesh.elementList.length = trianglePatch.elementList.length + 6 := by
  have hv : PatchValid trianglePatch 1 := by unfold PatchValid; decide
  have h := generateBoundaryLayers_counts (sampleCollaborators 1 1) 1 (1 / 100) (6 / 5) 3
    trianglePatch 3 2 (sampleCollaborators_queries 1 1 1) (by decide) (by decide) (by decide)
    hv (by decide) (by decide) (by decide)
  exact ⟨hv, h.2.1, h.2.2⟩

/-! ## Zero sizing with the auto-detect sentinel (C9) -/

/-- With a target edge length of zero, a first product `t0 * g` above zero and a
negative requested count, the body of the factag loop always ends in the length
error: the ideal count is -1. -/
theorem processFactag_zero_target_fault (c : Collaborators) (g : Real) (factag : Int)
    (t0 : Real) (n : Int) (m : Mesh) (hpos : c.mul t0 g > 0) (hn : n < 0)
    (hz : c.sqrt (c.ComputeElementSizingAverageOnFactag m factag) = 0) :
    processFactag c g factag t0 n m = ⟨m, [.sizingQuery factag], some .lengthError⟩ := by
  have hl : layersUsed c.mul n t0 g 0 = -1 := by
    unfold layersUsed idealLayers
    rw [if_pos hn, idealLayerLoop, if_pos hpos]
    rfl
  have hsz : vectorMaxSize < toSizeT (-1) := by decide
  unfold processFactag
  simp only [hz, hl, next_mk_none, if_pos hsz]
  rfl

/-- C9 at the failing input: average sizing 0 (edge length 0), first thickness 0.01,
growth rate 1.2 and requested count -1. The first product already exceeds 0, the ideal
count is 0 - 1 = -1, and the thickness table is requested with the size -1 turned into
an unsigned size: the run ends with a length error after the sizing query. The same
holds with the product of `double` on the `double` values of 0.01 and 1.2. -/
theorem generateBoundaryLayers_zero_sizing_fault :
    layersUsed (sampleCollaborators 0 0).mul (-1) (1 / 100) (6 / 5)
      ((sampleCollaborators 0 0).sqrt 0) = -1 ∧
    toSizeT (-1) = 2 ^ 64 - 1 ∧
    GenerateBoundaryLayers (sampleCollaborators 0 0) [1] [1 / 100] [-1] trianglePatch (6 / 5) =
      ⟨trianglePatch, [.sizingQuery 1], some .lengthError⟩ ∧
    GenerateBoundaryLayers (doubleCollaborators 0 0) [1] [roundDouble (1 / 100)] [-1]
      trianglePatch (roundDouble (6 / 5)) =
      ⟨trianglePatch, [.sizingQuery 1], some .lengthError⟩ := by
  decide!

/-! ## A surface element of another type (C10) -/

theorem stitchElement_none (nodemap : List (Nat × Nat)) (m : Mesh) (i : Nat)
    (h : (stitchElement nodemap m i).fault = none) :
    ∃ e vs, m.elementList[i]? = some e ∧ (e.etype = .TRI ∨ e.etype = .QUAD) ∧
      ∃ v, (v.etype = .PRISM ∨ v.etype = .HEX) ∧
        (stitchElement nodemap m i).mesh.elementList =
          (m.elementList ++ [v]).set i { e with nodes := vs } := by
  unfold stitchElement at h ⊢
  cases he : m.elementList[i]? with
  | none => rw [he] at h; simp at h
  | some e =>
    rw [he] at h
    simp only [] at h ⊢
    cases hmap : mapSurfNodes nodemap e.nodes 0 with
    | error f => rw [hmap] at h; simp at h
    | ok vs =>
      rw [hmap] at h
      simp only [] at h ⊢
      cases hty : e.etype <;> rw [hty] at h <;> simp only [] at h ⊢
      · by_cases hlen : e.nodes.length < 3
        · rw [if_pos hlen] at h; simp at h
        · rw [if_neg hlen]
          exact ⟨e, vs, rfl, Or.inl hty, _, Or.inl rfl, by rw [hty]⟩
      · by_cases hlen : e.nodes.length < 4
        · rw [if_pos hlen] at h; simp at h
        · rw [if_neg hlen]
          exact ⟨e, vs, rfl, Or.inr hty, _, Or.inr rfl, by rw [hty]⟩
      all_goals simp at h

/-- The stitching loop returns normally only if every listed element is a triangle or
a quadrilateral. -/
theorem stitchLoop_none (nodemap : List (Nat × Nat)) :
    ∀ (ids : List Nat) (m : Mesh), (stitchLoop nodemap ids m).fault = none →
      ∀ i ∈ ids, ∃ e, m.elementList[i]? = some e ∧ (e.etype = .TRI ∨ e.etype = .QUAD) := by
  intro ids
  induction ids with
  | nil => intro m _ i hi; simp at hi
  | cons j rest ih =>
    intro m h i hi
    rw [stitchLoop] at h
    cases hf : (stitchElement nodemap m j).fault with
    | some f =>
      rw [next_of_some _ _ f hf, hf] at h
      cases h
    | none =>
      rw [next_of_none _ _ hf] at h
      obtain ⟨e, vs, he, hty, v, hv, hlist⟩ := stitchElement_none nodemap m j hf
      rcases List.mem_cons.mp hi with hij | hi
      · subst hij
        exact ⟨e, he, hty⟩
      · obtain ⟨e1, he1, hty1⟩ := ih _ h i hi
        rw [hlist] at he1
        by_cases hij : i = j
        · subst hij
          exact ⟨e, he, hty⟩
        · rw [List.getElem?_set_ne (Ne.symm hij)] at he1
          by_cases hil : i < m.elementList.length
          · rw [List.getElem?_append_left hil] at he1
            exact ⟨e1, he1, hty1⟩
          · have hlen := (List.getElem?_eq_some.mp he1).1
            simp at hlen
            have hieq : i = m.elementList.length := by omega
            rw [hieq, List.getElem?_concat_length] at he1
            cases he1
            rcases hv with hv | hv <;> rcases hty1 with h1 | h1 <;> rw [hv] at h1 <;> cases h1

/-- Whenever the factag has a point and one of its listed surface elements is of a type
other than triangle or quadrilateral, `InflateBoundary` does not return normally. -/
theorem InflateBoundary_unsupported (c : Collaborators) (boundaryFactag : Int) (d : Real)
    (m : Mesh) (hne : c.FindPointsWithFactag m boundaryFactag ≠ [])
    (hsm : SmootherKeepsTopology c m) (i : Nat) (e : Element)
    (hi : i ∈ c.FindSurfaceElementsWithFactag m boundaryFactag)
    (he : m.elementList[i]? = some e) (hty : ¬ (e.etype = .TRI ∨ e.etype = .QUAD)) :
    (InflateBoundary c boundaryFactag d m).fault ≠ none := by
  have hlen : (c.FindPointsWithFactag m boundaryFactag).length ≠ 0 := by
    intro h0
    exact hne (List.length_eq_zero.mp h0)
  intro hnone
  unfold InflateBoundary at hnone
  simp only [hlen, if_false] at hnone
  cases hdx : fillDx c m (c.GetBoundariesOnBCType m) d (c.FindPointsWithFactag m boundaryFactag)
      ((List.range (m.GetNumNodes * 3)).map c.heap) with
  | none => rw [hdx] at hnone; simp at hnone
  | some dx =>
    rw [hdx] at hnone
    simp only [next_mk_none] at hnone
    cases hs : (stitchLoop (buildNodeMap (c.MoveMeshLinearElastic m dx 10).GetNumNodes
        (c.FindPointsWithFactag m boundaryFactag) 0 [])
        (c.FindSurfaceElementsWithFactag m boundaryFactag)
        ((c.MoveMeshLinearElastic m dx 10).AppendNodes
          (m.GetCoordsForPoints (c.FindPointsWithFactag m boundaryFactag)))).fault with
    | some f =>
      rw [next_of_some _ _ f hs, hs] at hnone
      cases hnone
    | none =>
      obtain ⟨e1, he1, hty1⟩ := stitchLoop_none _ _ _ hs i hi
      have hel : ((c.MoveMeshLinearElastic m dx 10).AppendNodes
          (m.GetCoordsForPoints (c.FindPointsWithFactag m boundaryFactag))).elementList =
          m.elementList := (hsm dx 10).1
      rw [hel, he] at he1
      cases he1
      exact hty hty1

/-- C10 at the failing input: on the mixed patch the run reports the type error and
then stops on the null element handle; the triangle listed after the unsupported
element is never processed (the element list is as before the call) and the rebuild
of counts, maps and metrics is not reached. -/
theorem inflateBoundary_unsupported_type_fault :
    (InflateBoundary (sampleCollaborators 1 1) 1 (1 / 20) mixedPatch).fault =
      some .nullDeref ∧
    (InflateBoundary (sampleCollaborators 1 1) 1 (1 / 20) mixedPatch).log.getLast? =
      some .typeNotInflatable ∧
    (InflateBoundary (sampleCollaborators 1 1) 1 (1 / 20) mixedPatch).mesh.elementList =
      mixedPatch.elementList := by
  decide!

/-! ## The displacement field (C11) -/

/-- The displacement loop on in-range points: the array keeps its length, holds
`normal * inflationDistance` at the three entries of every listed point, and keeps
what it held before at every other entry. -/
theorem fillDx_spec (c : Collaborators) (m : Mesh) (symm : List Int) (d : Real) :
    ∀ (pts : List Nat) (dx : List Real), (∀ p ∈ pts, p * 3 + 2 < dx.length) →
      ∃ dx1, fillDx c m symm d pts dx = some dx1 ∧ dx1.length = dx.length ∧
        (∀ p ∈ pts,
          dx1[p * 3 + 0]? = some (c.mul (c.GetNodeNeighborhoodNormal m p symm).1 d) ∧
          dx1[p * 3 + 1]? = some (c.mul (c.GetNodeNeighborhoodNormal m p symm).2.1 d) ∧
          dx1[p * 3 + 2]? = some (c.mul (c.GetNodeNeighborhoodNormal m p symm).2.2 d)) ∧
        (∀ j, (∀ p ∈ pts, j ≠ p * 3 + 0 ∧ j ≠ p * 3 + 1 ∧ j ≠ p * 3 + 2) →
          dx1[j]? = dx[j]?) := by
  intro pts
  induction pts with
  | nil =>
    intro dx _
    exact ⟨dx, rfl, rfl, by intro p hp; simp at hp, fun _ _ => rfl⟩
  | cons q pts ih =>
    intro dx h
    have hq : q * 3 + 2 < dx.length := h q (List.mem_cons_self _ _)
    obtain ⟨dx1, hdx1, hlen, hval, hkeep⟩ := ih
      (((dx.set (q * 3 + 0) (c.mul (c.GetNodeNeighborhoodNormal m q symm).1 d)).set
        (q * 3 + 1) (c.mul (c.GetNodeNeighborhoodNormal m q symm).2.1 d)).set
        (q * 3 + 2) (c.mul (c.GetNodeNeighborhoodNormal m q symm).2.2 d))
      (by intro p hp; simpa using h p (List.mem_cons_of_mem _ hp))
    have hstep : fillDx c m symm d (q :: pts) dx = some dx1 := by
      rw [fillDx]
      simp only [hq, if_true]
      exact hdx1
    refine ⟨dx1, hstep, by simpa using hlen, ?_, ?_⟩
    · intro p hp
      by_cases hmem : p ∈ pts
      · exact hval p hmem
      · have hpq : p = q := by
          rcases List.mem_cons.mp hp with h1 | h1
          · exact h1
          · exact absurd h1 hmem
        subst hpq
        have hfree : ∀ j, p * 3 ≤ j → j ≤ p * 3 + 2 →
            ∀ r ∈ pts, j ≠ r * 3 + 0 ∧ j ≠ r * 3 + 1 ∧ j ≠ r * 3 + 2 := by
          intro j hj1 hj2 r hr
          have hrp : r ≠ p := fun hh => hmem (hh ▸ hr)
          omega
        refine ⟨?_, ?_, ?_⟩
        · rw [hkeep _ (hfree _ (by omega) (by omega))]
          rw [List.getElem?_set_ne (by omega), List.getElem?_set_ne (by omega),
            List.getElem?_set]
          simp
          omega
        · rw [hkeep _ (hfree _ (by omega) (by omega))]
          rw [List.getElem?_set_ne (by omega), List.getElem?_set]
          simp
          omega
        · rw [hkeep _ (hfree _ (by omega) (by omega))]
          rw [List.getElem?_set]
          simp
          omega
    · intro j hj
      obtain ⟨h0, h1, h2⟩ := hj q (List.mem_cons_self _ _)
      rw [hkeep j (fun p hp => hj p (List.mem_cons_of_mem _ hp))]
      rw [List.getElem?_set_ne (Ne.symm h2), List.getElem?_set_ne (Ne.symm h1),
        List.getElem?_set_ne (Ne.symm h0)]

/-- The field handed to the smoother, for a non-empty list of points of the mesh: the
first event of the call is the smoother call with a field of three scalars per node,
`normal * inflationDistance` at the points of the factag, and at every other node
whatever the fresh allocation held. -/
theorem InflateBoundary_smoother_field (c : Collaborators) (boundaryFactag : Int) (d : Real)
    (m : Mesh) (hne : c.FindPointsWithFactag m boundaryFactag ≠ [])
    (hin : ∀ p ∈ c.FindPointsWithFactag m boundaryFactag, p < m.GetNumNodes) :
    ∃ dx, (InflateBoundary c boundaryFactag d m).log.head? = some (.smoother dx 10) ∧
      dx.length = m.GetNumNodes * 3 ∧
      (∀ p ∈ c.FindPointsWithFactag m boundaryFactag,
        dx[p * 3 + 0]? =
          some (c.mul (c.GetNodeNeighborhoodNormal m p (c.GetBoundariesOnBCType m)).1 d) ∧
        dx[p * 3 + 1]? =
          some (c.mul (c.GetNodeNeighborhoodNormal m p (c.GetBoundariesOnBCType m)).2.1 d) ∧
        dx[p * 3 + 2]? =
          some (c.mul (c.GetNodeNeighborhoodNormal m p (c.GetBoundariesOnBCType m)).2.2 d)) ∧
      (∀ q k, q < m.GetNumNodes → q ∉ c.FindPointsWithFactag m boundaryFactag → k < 3 →
        dx[q * 3 + k]? = some (c.heap (q * 3 + k))) := by
  have hlen0 : (c.FindPointsWithFactag m boundaryFactag).length ≠ 0 := by
    intro h0
    exact hne (List.length_eq_zero.mp h0)
  obtain ⟨dx, hdx, hlen, hval, hkeep⟩ := fillDx_spec c m (c.GetBoundariesOnBCType m) d
    (c.FindPointsWithFactag m boundaryFactag) ((List.range (m.GetNumNodes * 3)).map c.heap)
    (by intro p hp; have := hin p hp; simp; omega)
  refine ⟨dx, ?_, by simpa using hlen, hval, ?_⟩
  · unfold InflateBoundary
    simp only [hlen0, if_false, hdx, next_mk_none]
    rfl
  · intro q k hq hqp hk
    rw [hkeep _ (by
      intro p hp
      have hpq : p ≠ q := fun hh => hqp (hh ▸ hp)
      omega)]
    rw [List.getElem?_map, List.getElem?_range (by omega)]
    rfl

/-- C11 at the failing input: on the triangle patch, with a heap whose fresh scalars
hold 7, the field handed to the smoother has twelve scalars, holds the displacement
(0, 0, 0.05) at the three points of factag 1, and holds (7, 7, 7) at node 3, which is
not a point of the factag: the entries of untagged nodes are never written. -/
theorem inflateBoundary_displacement_field_fault :
    3 ∉ usedHeapCollaborators.FindPointsWithFactag trianglePatch 1 ∧
    (InflateBoundary usedHeapCollaborators 1 (1 / 20) trianglePatch).log.head? =
      some (.smoother [0, 0, 1 / 20, 0, 0, 1 / 20, 0, 0, 1 / 20, 7, 7, 7] 10) := by
  decide!

end ProteusCFD
